import Mathlib

/-!
Shallow embedding of the kk-lang interpreter (repository files
`src/main.rs` and `src/value.rs`) together with theorems settling the
claims about its specification.

Modelling conventions:
* Rust `panic!` sites become constructors of the `Err` type; `eval`
  returns `Except Err (Value × InterpSt)`.
* Rust `i64` is modelled by `ℤ` together with the i64 behaviours the
  evaluator can observe: the range check performed by
  `str::parse::<i64>`, the unconditional remainder-overflow panic of
  `%` at `i64::MIN % -1`, the overflow check of the `value + 1` in
  `inc` at `i64::MAX` (overflow-checked arithmetic, the default build
  profile; release builds wrap instead — the claims below rely on the
  overflow case only through "the result is never `Int(n+1)`", which
  holds in both profiles), and the round-to-nearest-even rounding of
  the `i64 as f64` cast for magnitudes above `2^53`.
* Rust `f64` is modelled by `F64`: an exact rational (the type `Q`
  below, kept in lowest terms by construction), NaN, or an infinity.
  All floating-point values and operations appearing in the claims are
  exactly representable, so exact rational arithmetic agrees with IEEE
  double arithmetic on them; rounding of inexact results and the
  decimal rendering of non-integral floats are not modelled (no claim
  depends on them).
* The `HashMap<String, Value>` environment is modelled by an
  association list with a replace-or-append insert, which has the same
  observable lookup behaviour.
* `println!` output is modelled by a list of printed lines carried in
  the interpreter state.
-/

namespace KK

/-- An exact rational with explicit numerator and denominator.  Every
`Q` produced by the definitions below is in lowest terms with a
positive denominator (the standard library rationals are avoided
because their normalization does not reduce inside the kernel). -/
structure Q where
  num : ℤ
  den : ℕ
deriving DecidableEq

/-- Euclid's algorithm with explicit fuel, so that it is structurally
recursive and kernel-computable; `fuel ≥ b` always suffices. -/
def gcdFuel : ℕ → ℕ → ℕ → ℕ
  | 0, a, _ => a
  | fuel + 1, a, b => if b = 0 then a else gcdFuel fuel b (a % b)

/-- Greatest common divisor via `gcdFuel`. -/
def natGcd (a b : ℕ) : ℕ := gcdFuel (b + 1) a b

/-- Normalized rational from a numerator and a positive denominator. -/
def mkQn (n : ℤ) (d : ℕ) : Q :=
  let g := natGcd n.natAbs d
  if g = 0 then ⟨0, 1⟩ else ⟨n / (g : ℤ), d / g⟩

/-- Normalized rational from a numerator and a signed denominator. -/
def mkQi (n d : ℤ) : Q :=
  if d < 0 then mkQn (-n) (-d).toNat else mkQn n d.toNat

/-- Addition on `Q`. -/
def Q.add (a b : Q) : Q :=
  mkQn (a.num * (b.den : ℤ) + b.num * (a.den : ℤ)) (a.den * b.den)

/-- Subtraction on `Q`. -/
def Q.sub (a b : Q) : Q :=
  mkQn (a.num * (b.den : ℤ) - b.num * (a.den : ℤ)) (a.den * b.den)

/-- Multiplication on `Q`. -/
def Q.mul (a b : Q) : Q := mkQn (a.num * b.num) (a.den * b.den)

/-- Division on `Q` (the divisor is nonzero wherever this is used). -/
def Q.div (a b : Q) : Q := mkQi (a.num * (b.den : ℤ)) ((a.den : ℤ) * b.num)

/-- Truncation toward zero, as used by `f64::trunc`. -/
def Q.trunc (a : Q) : ℤ := Int.tdiv a.num a.den

/-- The rational `n/1`. -/
def Q.ofInt (n : ℤ) : Q := ⟨n, 1⟩

/-- The power `10 ^ e` as a rational, for a signed exponent. -/
def pow10Q (e : ℤ) : Q :=
  if 0 ≤ e then ⟨(10 : ℤ) ^ e.toNat, 1⟩ else ⟨1, 10 ^ (-e).toNat⟩

/-- Model of Rust `f64`: an exactly represented finite value, NaN, or a
signed infinity. -/
inductive F64 where
  | finite (q : Q)
  | nan
  | inf (neg : Bool)
deriving DecidableEq

/-- Number of bits of a natural number, with explicit fuel so that it
is structurally recursive and kernel-computable; fuel 128 covers every
magnitude an i64 can produce. -/
def bitLenFuel : ℕ → ℕ → ℕ
  | 0, _ => 0
  | fuel + 1, n => if n = 0 then 0 else bitLenFuel fuel (n / 2) + 1

/-- Bit length of an i64 magnitude. -/
def bitLen (n : ℕ) : ℕ := bitLenFuel 128 n

/-- The value of the Rust cast `n as f64` for an i64 `n`: exact up to
`2^53`, otherwise rounded to 53 significant bits with round half to
even (the result is always an integer, so it is returned as one). -/
def roundI64toF64 (n : ℤ) : ℤ :=
  let m := n.natAbs
  if m ≤ 2 ^ 53 then n
  else
    let e := bitLen m - 53
    let q := m / 2 ^ e
    let r := m % 2 ^ e
    let half := 2 ^ (e - 1)
    let q2 := if half < r ∨ (r = half ∧ q % 2 = 1) then q + 1 else q
    let v : ℤ := (q2 * 2 ^ e : ℕ)
    if n < 0 then -v else v

/-- Widening `i64 as f64`, including the rounding of magnitudes above
`2^53`. -/
def F64.ofInt (n : ℤ) : F64 := .finite (Q.ofInt (roundI64toF64 n))

/-- Rust `x + 1.0` on `f64`. -/
def F64.add1 : F64 → F64
  | .finite x => .finite (x.add (Q.ofInt 1))
  | .nan => .nan
  | .inf b => .inf b

/-- Rust `%` on `f64` (C `fmod`): truncated-division remainder; a zero
divisor or a NaN/infinite dividend gives NaN. -/
def F64.fmod : F64 → F64 → F64
  | .finite x, .finite y =>
      if y.num = 0 then .nan
      else .finite (x.sub (y.mul (Q.ofInt ((x.div y).trunc))))
  | .finite x, .inf _ => .finite x
  | .finite _, .nan => .nan
  | .inf _, _ => .nan
  | .nan, _ => .nan

/-- Rust `==` on `f64`: NaN is equal to nothing, otherwise compare the
represented values (by cross-multiplication, so the comparison does not
depend on representation). -/
def F64.beq : F64 → F64 → Bool
  | .finite x, .finite y => x.num * (y.den : ℤ) = y.num * (x.den : ℤ)
  | .inf a, .inf b => a = b
  | _, _ => false

/-- The runtime value type of `src/value.rs` (`enum Value`). -/
inductive Value where
  | int (n : ℤ)
  | float (f : F64)
  | string (s : String)
  | bool (b : Bool)
  | null
  | void
deriving DecidableEq

/-- Rendering of a float per Rust `f64::to_string`; integral values print
without a decimal point (Rust prints `2.0_f64` as `"2"`).  Non-integral
values are rendered as exact rationals, a deviation from Rust's decimal
notation that no claim observes. -/
def F64.render : F64 → String
  | .finite q =>
      if q.den = 1 then toString q.num
      else toString q.num ++ "/" ++ toString q.den
  | .nan => "NaN"
  | .inf b => if b then "-inf" else "inf"

/-- `Value::to_string` from `src/value.rs`. -/
def Value.render : Value → String
  | .int n => toString n
  | .float f => f.render
  | .string s => s
  | .bool b => if b then "true" else "false"
  | .null => "null"
  | .void => "void"

/-- The expression tree of `src/sexpr.rs` (`enum SExpr`), as consumed by
the evaluator. -/
inductive SExpr where
  | atom (s : String)
  | list (l : List SExpr)

/-- The environment: `HashMap<String, Value>` modelled as an association
list whose insert replaces an existing key in place. -/
abbrev Env := List (String × Value)

/-- `HashMap::insert`. -/
def envInsert (k : String) (v : Value) : Env → Env
  | [] => [(k, v)]
  | (k1, v1) :: rest =>
      if k1 = k then (k, v) :: rest else (k1, v1) :: envInsert k v rest

/-- `HashMap::get`. -/
def envGet (k : String) : Env → Option Value
  | [] => none
  | (k1, v1) :: rest => if k1 = k then some v1 else envGet k rest

/-- Interpreter state: the variable store plus the lines printed so far
(in order). -/
structure InterpSt where
  vars : Env
  out : List String
deriving DecidableEq

/-- Every way `Interpreter::eval`/`eval_atom` can abort, one constructor
per `panic!` site of `src/main.rs`, plus three runtime arithmetic
panics: `divByZero` for the Rust `%` operator on a zero integer
divisor, `remOverflow` for `%` at `i64::MIN % -1` (unconditional in
all build profiles), and `addOverflow` for the `value + 1` of `inc` at
`i64::MAX` (the overflow-checked default profile; release builds wrap
instead). -/
inductive Err where
  | expectedFunctionName
  | expectedFormatString
  | expectedVariableName
  | expectedValue
  | expectedEndOfList
  | variableNotFound (name : String)
  | variableNotInteger (name : String)
  | expectedLeftValue
  | expectedRightValue
  | expectedIntOrFloat
  | expectedCondition
  | expectedBoolValue
  | expectedTrueBranch
  | expectedFalseBranch
  | expectedFromKeyword
  | expectedToKeyword
  | expectedIntegerValue
  | expectedStartValue
  | expectedEndValue
  | expectedBody
  | expectedListBody
  | unknownFunction (name : String)
  | unknownAtom (name : String)
  | divByZero
  | remOverflow
  | addOverflow
deriving DecidableEq

/-- Digit run to a number, failing on a non-digit (`str::parse` accepts
only ASCII digits after the sign). -/
def digitsNatAux : List Char → ℕ → Option ℕ
  | [], acc => some acc
  | c :: cs, acc =>
      if c.isDigit then digitsNatAux cs (10 * acc + (c.toNat - 48)) else none

/-- Nonempty all-digit run to a number. -/
def digitsNat : List Char → Option ℕ
  | [] => none
  | c :: cs => digitsNatAux (c :: cs) 0

/-- Rust `str::parse::<i64>`: optional sign, one or more digits, value
within the i64 range. -/
def parseI64 (s : String) : Option ℤ :=
  match s.data with
  | [] => none
  | c :: cs =>
      let signed : Bool × List Char :=
        if c = '-' then (true, cs)
        else if c = '+' then (false, cs)
        else (false, c :: cs)
      match digitsNat signed.2 with
      | none => none
      | some n =>
          let v : ℤ := if signed.1 then -(n : ℤ) else (n : ℤ)
          if -(2 ^ 63) ≤ v ∧ v ≤ 2 ^ 63 - 1 then some v else none

/-- Value of a digit run (used by the float parser where the run is
already known to be all digits). -/
def digitsVal (cs : List Char) : ℕ :=
  cs.foldl (fun acc c => 10 * acc + (c.toNat - 48)) 0

/-- Optional exponent suffix `([eE] [+-]? digits)?` of a float literal;
returns the exponent (0 when absent), or `none` if the tail is not a
well-formed exponent. -/
def parseExpPart (cs : List Char) : Option ℤ :=
  match cs with
  | [] => some 0
  | e :: rest =>
      if e = 'e' ∨ e = 'E' then
        match rest with
        | [] => none
        | d :: ds =>
            let signed : Bool × List Char :=
              if d = '-' then (true, ds)
              else if d = '+' then (false, ds)
              else (false, d :: ds)
            match digitsNat signed.2 with
            | none => none
            | some n => some (if signed.1 then -(n : ℤ) else (n : ℤ))
      else none

/-- Decimal part of a float literal after the sign:
`digits [. digits?] | . digits`, then an optional exponent.  The value
is kept as an exact rational (see the module comment). -/
def parseDecimal (cs : List Char) : Option Q :=
  let ip := cs.takeWhile Char.isDigit
  let rest := cs.dropWhile Char.isDigit
  match rest with
  | '.' :: rest2 =>
      let fp := rest2.takeWhile Char.isDigit
      let rest3 := rest2.dropWhile Char.isDigit
      if ip.isEmpty ∧ fp.isEmpty then none
      else
        match parseExpPart rest3 with
        | none => none
        | some e =>
            some ((((Q.ofInt (digitsVal ip)).add
              (mkQn (digitsVal fp) (10 ^ fp.length))).mul (pow10Q e)))
  | _ =>
      if ip.isEmpty then none
      else
        match parseExpPart rest with
        | none => none
        | some e => some ((Q.ofInt (digitsVal ip)).mul (pow10Q e))

/-- Rust `str::parse::<f64>`: optional sign, then `inf`/`infinity`/`nan`
(case-insensitive) or a decimal literal with optional exponent.
Overflow to infinity of huge finite literals is not modelled. -/
def parseF64 (s : String) : Option F64 :=
  match s.data with
  | [] => none
  | c :: cs =>
      let signed : Bool × List Char :=
        if c = '-' then (true, cs)
        else if c = '+' then (false, cs)
        else (false, c :: cs)
      let low := signed.2.map Char.toLower
      if low = "inf".data ∨ low = "infinity".data then some (.inf signed.1)
      else if low = "nan".data then some .nan
      else
        match parseDecimal signed.2 with
        | none => none
        | some q => some (.finite (if signed.1 then ⟨-q.num, q.den⟩ else q))

/-- `Interpreter::eval_atom`: boolean literals, then an integer parse,
then a float parse, else the unknown-atom panic.  It never consults the
environment. -/
def evalAtom (a : String) : Except Err Value :=
  if a = "true" then .ok (.bool true)
  else if a = "false" then .ok (.bool false)
  else
    match parseI64 a with
    | some n => .ok (.int n)
    | none =>
        match parseF64 a with
        | some f => .ok (.float f)
        | none => .error (.unknownAtom a)

/-- Opening brace character (written via its code point). -/
def lbrace : Char := Char.ofNat 123

/-- Closing brace character (written via its code point). -/
def rbrace : Char := Char.ofNat 125

/-- Sequential positional substitution of empty-brace placeholders, the
behaviour of the external `dyn_fmt` formatter consumed by `format`
(treated by the spec as an opaque contract; no claim depends on it). -/
def formatFill : List Char → List String → List Char
  | [], _ => []
  | [c], _ => [c]
  | c :: d :: rest, args =>
      if c = lbrace ∧ d = rbrace then
        match args with
        | a :: as_ => a.data ++ formatFill rest as_
        | [] => formatFill rest []
      else c :: formatFill (d :: rest) args

/-- The `format.format(&args)` call of the `format` form. -/
def formatTemplate (fmt : String) (args : List Value) : String :=
  ⟨formatFill fmt.data (args.map Value.render)⟩

/-- The operand match of the `mod` arm (`src/main.rs` lines 200-212).
`divByZero` models the Rust runtime panic of `left % right` when both
are integers and `right` is zero, `remOverflow` the unconditional
remainder-overflow panic at `i64::MIN % -1`; otherwise `Int.tmod` is
the truncated remainder computed by Rust `%` on `i64` (in range for
every in-range operand pair). -/
def modValues : Value → Value → Except Err Value
  | .int a, .int b =>
      if b = 0 then .error .divByZero
      else if a = -(2 ^ 63) ∧ b = -1 then .error .remOverflow
      else .ok (.int (Int.tmod a b))
  | .float x, .float y => .ok (.float (F64.fmod x y))
  | .int a, .float y => .ok (.float (F64.fmod (F64.ofInt a) y))
  | .float x, .int b => .ok (.float (F64.fmod x (F64.ofInt b)))
  | _, _ => .error .expectedIntOrFloat

/-- The operand match of the `eq` arm (`src/main.rs` lines 229-241). -/
def eqValues : Value → Value → Except Err Value
  | .int a, .int b => .ok (.bool (a = b))
  | .float x, .float y => .ok (.bool (F64.beq x y))
  | .string s, .string t => .ok (.bool (s = t))
  | .bool a, .bool b => .ok (.bool (a = b))
  | .null, .null => .ok (.bool true)
  | .void, .void => .ok (.bool true)
  | _, _ => .error .expectedIntOrFloat

/-- The iteration sequence of the Rust range `s..`: `n` successive
integers starting at `s`, in increasing order.  `intRange s (e-s).toNat`
is exactly the sequence of values taken by `for i in s..e`. -/
def intRange (s : ℤ) : ℕ → List ℤ
  | 0 => []
  | n + 1 => s :: intRange (s + 1) n

/-- The `get` arm (no recursive evaluation). -/
def evalGetForm : List SExpr → InterpSt → Except Err (Value × InterpSt)
  | [.atom x], st =>
      match envGet x st.vars with
      | some v => .ok (v, st)
      | none => .error (.variableNotFound x)
  | .atom _ :: _ :: _, _ => .error .expectedEndOfList
  | _, _ => .error .expectedVariableName

/-- The `inc` arm (no recursive evaluation).  The `value + 1` on an
`Int` binding is overflow-checked: at `i64::MAX` it aborts with the
add-overflow panic (the default build profile; a release build would
wrap to `i64::MIN` instead — in either profile the result is never
`Int(n+1)`). -/
def evalIncForm : List SExpr → InterpSt → Except Err (Value × InterpSt)
  | [.atom x], st =>
      match envGet x st.vars with
      | none => .error (.variableNotFound x)
      | some (.int n) =>
          if n = 2 ^ 63 - 1 then .error .addOverflow
          else
            .ok (Value.int (n + 1),
              { st with vars := envInsert x (Value.int (n + 1)) st.vars })
      | some (.float f) =>
          .ok (Value.float f.add1,
            { st with vars := envInsert x (Value.float f.add1) st.vars })
      | some _ => .error (.variableNotInteger x)
  | .atom _ :: _ :: _, _ => .error .expectedEndOfList
  | _, _ => .error .expectedVariableName

mutual

/-- `Interpreter::eval` of `src/main.rs`, with the mutable interpreter
threaded as explicit state and panics as `Except.error`. -/
def eval : SExpr → InterpSt → Except Err (Value × InterpSt)
  | .atom a, st => (evalAtom a).map (fun v => (v, st))
  | .list [], _ => .error .expectedFunctionName
  | .list (.list _ :: _), _ => .error .expectedFunctionName
  | .list (.atom fname :: args), st => evalForm fname args st
termination_by s _ => (sizeOf s, 9)

/-- The form-name dispatch of `Interpreter::eval` (the `match name.as_str()`
of `src/main.rs`). -/
def evalForm (fname : String) (args : List SExpr) (st : InterpSt) :
    Except Err (Value × InterpSt) :=
  if fname = "print" then (evalPrint args st).map (fun st1 => (Value.void, st1))
  else if fname = "format" then evalFormatForm args st
  else if fname = "let" then evalLetForm args st
  else if fname = "set" then evalSetForm args st
  else if fname = "get" then evalGetForm args st
  else if fname = "inc" then evalIncForm args st
  else if fname = "mod" then evalModForm args st
  else if fname = "eq" then evalEqForm args st
  else if fname = "if" then evalIfForm args st
  else if fname = "count" then evalCountForm args st
  else .error (.unknownFunction fname)
termination_by (sizeOf args, 8)

/-- The `format` arm: a literal template atom, then evaluated arguments. -/
def evalFormatForm : List SExpr → InterpSt → Except Err (Value × InterpSt)
  | .atom fmt :: rest, st =>
      (evalArgs rest st).map
        (fun p => (Value.string (formatTemplate fmt p.1), p.2))
  | _, _ => .error .expectedFormatString
termination_by l _ => (sizeOf l, 7)

/-- The `let` arm: name atom, value expression, trailing-token check
(raised before the value is evaluated), binding; result `Void`. -/
def evalLetForm : List SExpr → InterpSt → Except Err (Value × InterpSt)
  | .atom x :: vexp :: [], st =>
      (eval vexp st).map
        (fun p => (Value.void, { p.2 with vars := envInsert x p.1 p.2.vars }))
  | .atom _ :: _ :: _ :: _, _ => .error .expectedEndOfList
  | [.atom _], _ => .error .expectedValue
  | _, _ => .error .expectedVariableName
termination_by l _ => (sizeOf l, 7)

/-- The `set` arm: same binding as `let`, but the bound value is
returned. -/
def evalSetForm : List SExpr → InterpSt → Except Err (Value × InterpSt)
  | .atom x :: vexp :: [], st =>
      (eval vexp st).map
        (fun p => (p.1, { p.2 with vars := envInsert x p.1 p.2.vars }))
  | .atom _ :: _ :: _ :: _, _ => .error .expectedEndOfList
  | [.atom _], _ => .error .expectedValue
  | _, _ => .error .expectedVariableName
termination_by l _ => (sizeOf l, 7)

/-- The `mod` arm: evaluate the left operand, require a right operand,
evaluate it, combine with `modValues`.  Tokens after the right operand
are never examined. -/
def evalModForm : List SExpr → InterpSt → Except Err (Value × InterpSt)
  | lexp :: rest, st => (eval lexp st).bind (fun p => evalModRight p.1 rest p.2)
  | [], _ => .error .expectedLeftValue
termination_by l _ => (sizeOf l, 7)

/-- The `mod` arm after the left operand has been evaluated. -/
def evalModRight (lv : Value) :
    List SExpr → InterpSt → Except Err (Value × InterpSt)
  | rexp :: _, st1 =>
      (eval rexp st1).bind
        (fun p => (modValues lv p.1).map (fun v => (v, p.2)))
  | [], _ => .error .expectedRightValue
termination_by l _ => (sizeOf l, 7)

/-- The `eq` arm, exactly parallel to `mod` with `eqValues`. -/
def evalEqForm : List SExpr → InterpSt → Except Err (Value × InterpSt)
  | lexp :: rest, st => (eval lexp st).bind (fun p => evalEqRight p.1 rest p.2)
  | [], _ => .error .expectedLeftValue
termination_by l _ => (sizeOf l, 7)

/-- The `eq` arm after the left operand has been evaluated. -/
def evalEqRight (lv : Value) :
    List SExpr → InterpSt → Except Err (Value × InterpSt)
  | rexp :: _, st1 =>
      (eval rexp st1).bind
        (fun p => (eqValues lv p.1).map (fun v => (v, p.2)))
  | [], _ => .error .expectedRightValue
termination_by l _ => (sizeOf l, 7)

/-- The `if` arm: the condition is evaluated first; the remaining
tokens are handled by `evalIfCond`. -/
def evalIfForm : List SExpr → InterpSt → Except Err (Value × InterpSt)
  | [], _ => .error .expectedCondition
  | condE :: rest, st => (eval condE st).bind (fun p => evalIfCond p.1 rest p.2)
termination_by l _ => (sizeOf l, 7)

/-- The `if` arm after the condition has been evaluated: the condition
must be a `Bool` (checked before the true-branch presence check); a
taken `List` branch runs as a statement sequence yielding `Void`, a
taken `Atom` branch as an atom. -/
def evalIfCond : Value → List SExpr → InterpSt → Except Err (Value × InterpSt)
  | .bool _, [], _ => .error .expectedTrueBranch
  | .bool true, .list bl :: _, st1 =>
      (evalSeq bl st1).map (fun st2 => (Value.void, st2))
  | .bool true, .atom a :: _, st1 => (evalAtom a).map (fun v => (v, st1))
  | .bool false, _ :: rest2, st1 => evalIfElse rest2 st1
  | _, _, _ => .error .expectedBoolValue
termination_by _ l _ => (sizeOf l, 7)

/-- The untaken-condition tail of the `if` arm: the next token is
consumed; only a literal `else` atom selects the false branch, any
other (or absent) token falls through to `Void`. -/
def evalIfElse : List SExpr → InterpSt → Except Err (Value × InterpSt)
  | .atom kw :: rest3, st1 =>
      if kw = "else" then evalIfElseBranch rest3 st1
      else .ok (Value.void, st1)
  | _, st1 => .ok (Value.void, st1)
termination_by l _ => (sizeOf l, 7)

/-- Evaluation of the false branch of an `if` whose `else` keyword has
been consumed. -/
def evalIfElseBranch : List SExpr → InterpSt → Except Err (Value × InterpSt)
  | [], _ => .error .expectedFalseBranch
  | .list bl :: _, st1 => (evalSeq bl st1).map (fun st2 => (Value.void, st2))
  | .atom a :: _, st1 => (evalAtom a).map (fun v => (v, st1))
termination_by l _ => (sizeOf l, 7)

/-- The `count` arm: loop-variable atom and the literal `from` keyword,
then the start bound. -/
def evalCountForm : List SExpr → InterpSt → Except Err (Value × InterpSt)
  | .atom var :: .atom fromKw :: rest2, st =>
      if fromKw = "from" then evalCountStart var rest2 st
      else .error .expectedFromKeyword
  | .atom _ :: _, _ => .error .expectedFromKeyword
  | _, _ => .error .expectedVariableName
termination_by l _ => (sizeOf l, 7)

/-- The `count` arm: evaluation of the start bound. -/
def evalCountStart (var : String) :
    List SExpr → InterpSt → Except Err (Value × InterpSt)
  | [], _ => .error .expectedStartValue
  | startE :: rest3, st =>
      (eval startE st).bind (fun p => evalCountTo var p.1 rest3 p.2)
termination_by l _ => (sizeOf l, 7)

/-- The `count` arm: the start bound must be an `Int`, then the literal
`to` keyword is required. -/
def evalCountTo (var : String) :
    Value → List SExpr → InterpSt → Except Err (Value × InterpSt)
  | .int s, .atom toKw :: rest4, st1 =>
      if toKw = "to" then evalCountEnd var s rest4 st1
      else .error .expectedToKeyword
  | .int _, _, _ => .error .expectedToKeyword
  | _, _, _ => .error .expectedIntegerValue
termination_by _ l _ => (sizeOf l, 7)

/-- The `count` arm: evaluation of the end bound. -/
def evalCountEnd (var : String) (s : ℤ) :
    List SExpr → InterpSt → Except Err (Value × InterpSt)
  | [], _ => .error .expectedEndValue
  | endE :: rest5, st1 =>
      (eval endE st1).bind (fun p => evalCountBody var s p.1 rest5 p.2)
termination_by l _ => (sizeOf l, 7)

/-- The `count` arm: the end bound must be an `Int` and the body a
`List`; then the `for i in start..end` loop runs.  Tokens after the
body are never examined. -/
def evalCountBody (var : String) (s : ℤ) :
    Value → List SExpr → InterpSt → Except Err (Value × InterpSt)
  | .int e, .list bl :: _, st2 =>
      (countLoop (intRange s (e - s).toNat) var bl st2).map
        (fun st3 => (Value.void, st3))
  | .int _, .atom _ :: _, _ => .error .expectedListBody
  | .int _, [], _ => .error .expectedBody
  | _, _, _ => .error .expectedIntegerValue
termination_by _ l _ => (sizeOf l, 7)

/-- The `print` arm: evaluate each argument in order, printing its
rendering on its own line. -/
def evalPrint : List SExpr → InterpSt → Except Err InterpSt
  | [], st => .ok st
  | e :: rest, st =>
      (eval e st).bind
        (fun p => evalPrint rest { p.2 with out := p.2.out ++ [p.1.render] })
termination_by l _ => (sizeOf l, 7)

/-- Argument collection of the `format` arm: evaluate each expression
in order, collecting the values. -/
def evalArgs : List SExpr → InterpSt → Except Err (List Value × InterpSt)
  | [], st => .ok ([], st)
  | e :: rest, st =>
      (eval e st).bind
        (fun p => (evalArgs rest p.2).map (fun q => (p.1 :: q.1, q.2)))
termination_by l _ => (sizeOf l, 7)

/-- `Interpreter::eval_list`: evaluate each element as a statement,
discarding results (the final state is returned; the caller supplies
the `Void` result). -/
def evalSeq : List SExpr → InterpSt → Except Err InterpSt
  | [], st => .ok st
  | e :: rest, st => (eval e st).bind (fun p => evalSeq rest p.2)
termination_by l _ => (sizeOf l, 0)

/-- The `for i in start..end` loop of the `count` arm, walking the
iteration sequence `intRange start (end - start).toNat`.  Each iteration
inserts the loop variable, then evaluates the body as a statement
sequence. -/
def countLoop : List ℤ → String → List SExpr → InterpSt → Except Err InterpSt
  | [], _, _, st => .ok st
  | i :: is, var, body, st =>
      (evalSeq body { st with vars := envInsert var (Value.int i) st.vars }).bind
        (fun st1 => countLoop is var body st1)
termination_by l _ body _ => (sizeOf body, l.length + 1)

end


deriving instance DecidableEq for Except

/-! A fuel-bounded mirror of the evaluator.  The mutual block above is
compiled by well-founded recursion and therefore does not reduce inside
the kernel; the mirror below is structurally recursive on a fuel
argument, so concrete runs can be computed by `decide`.  The soundness
theorem `evalF_sound` transfers every completed mirror run to `eval`. -/

/-- Result of a fuel-bounded run: `none` means the fuel was exhausted. -/
abbrev Res (A : Type) := Option (Except Err A)

/-- Error-propagating bind on fuel-bounded results. -/
def bindR {A B : Type} : Res A → (A → Res B) → Res B
  | none, _ => none
  | some (.error e), _ => some (.error e)
  | some (.ok a), f => f a

/-- Map on fuel-bounded results. -/
def mapR {A B : Type} (f : A → B) : Res A → Res B
  | none => none
  | some (.error e) => some (.error e)
  | some (.ok a) => some (.ok (f a))

mutual

/-- Fuel-bounded mirror of `eval`. -/
def evalF : ℕ → SExpr → InterpSt → Res (Value × InterpSt)
  | 0, _, _ => none
  | _ + 1, .atom a, st => some ((evalAtom a).map (fun v => (v, st)))
  | _ + 1, .list [], _ => some (.error .expectedFunctionName)
  | _ + 1, .list (.list _ :: _), _ => some (.error .expectedFunctionName)
  | n + 1, .list (.atom fname :: args), st => evalFormF n fname args st
termination_by structural n _ _ => n

/-- Fuel-bounded mirror of `evalForm`. -/
def evalFormF : ℕ → String → List SExpr → InterpSt → Res (Value × InterpSt)
  | 0, _, _, _ => none
  | n + 1, fname, args, st =>
      if fname = "print" then
        mapR (fun st1 => (Value.void, st1)) (evalPrintF n args st)
      else if fname = "format" then evalFormatFormF n args st
      else if fname = "let" then evalLetFormF n args st
      else if fname = "set" then evalSetFormF n args st
      else if fname = "get" then some (evalGetForm args st)
      else if fname = "inc" then some (evalIncForm args st)
      else if fname = "mod" then evalModFormF n args st
      else if fname = "eq" then evalEqFormF n args st
      else if fname = "if" then evalIfFormF n args st
      else if fname = "count" then evalCountFormF n args st
      else some (.error (.unknownFunction fname))
termination_by structural n _ _ _ => n

/-- Fuel-bounded mirror of `evalFormatForm`. -/
def evalFormatFormF : ℕ → List SExpr → InterpSt → Res (Value × InterpSt)
  | 0, _, _ => none
  | n + 1, .atom fmt :: rest, st =>
      mapR (fun p => (Value.string (formatTemplate fmt p.1), p.2))
        (evalArgsF n rest st)
  | _ + 1, _, _ => some (.error .expectedFormatString)
termination_by structural n _ _ => n

/-- Fuel-bounded mirror of `evalLetForm`. -/
def evalLetFormF : ℕ → List SExpr → InterpSt → Res (Value × InterpSt)
  | 0, _, _ => none
  | n + 1, .atom x :: vexp :: [], st =>
      mapR (fun p => (Value.void, { p.2 with vars := envInsert x p.1 p.2.vars }))
        (evalF n vexp st)
  | _ + 1, .atom _ :: _ :: _ :: _, _ => some (.error .expectedEndOfList)
  | _ + 1, [.atom _], _ => some (.error .expectedValue)
  | _ + 1, _, _ => some (.error .expectedVariableName)
termination_by structural n _ _ => n

/-- Fuel-bounded mirror of `evalSetForm`. -/
def evalSetFormF : ℕ → List SExpr → InterpSt → Res (Value × InterpSt)
  | 0, _, _ => none
  | n + 1, .atom x :: vexp :: [], st =>
      mapR (fun p => (p.1, { p.2 with vars := envInsert x p.1 p.2.vars }))
        (evalF n vexp st)
  | _ + 1, .atom _ :: _ :: _ :: _, _ => some (.error .expectedEndOfList)
  | _ + 1, [.atom _], _ => some (.error .expectedValue)
  | _ + 1, _, _ => some (.error .expectedVariableName)
termination_by structural n _ _ => n

/-- Fuel-bounded mirror of `evalModForm`. -/
def evalModFormF : ℕ → List SExpr → InterpSt → Res (Value × InterpSt)
  | 0, _, _ => none
  | n + 1, lexp :: rest, st =>
      bindR (evalF n lexp st) (fun p => evalModRightF n p.1 rest p.2)
  | _ + 1, [], _ => some (.error .expectedLeftValue)
termination_by structural n _ _ => n

/-- Fuel-bounded mirror of `evalModRight`. -/
def evalModRightF : ℕ → Value → List SExpr → InterpSt → Res (Value × InterpSt)
  | 0, _, _, _ => none
  | n + 1, lv, rexp :: _, st1 =>
      bindR (evalF n rexp st1)
        (fun p => some ((modValues lv p.1).map (fun v => (v, p.2))))
  | _ + 1, _, [], _ => some (.error .expectedRightValue)
termination_by structural n _ _ _ => n

/-- Fuel-bounded mirror of `evalEqForm`. -/
def evalEqFormF : ℕ → List SExpr → InterpSt → Res (Value × InterpSt)
  | 0, _, _ => none
  | n + 1, lexp :: rest, st =>
      bindR (evalF n lexp st) (fun p => evalEqRightF n p.1 rest p.2)
  | _ + 1, [], _ => some (.error .expectedLeftValue)
termination_by structural n _ _ => n

/-- Fuel-bounded mirror of `evalEqRight`. -/
def evalEqRightF : ℕ → Value → List SExpr → InterpSt → Res (Value × InterpSt)
  | 0, _, _, _ => none
  | n + 1, lv, rexp :: _, st1 =>
      bindR (evalF n rexp st1)
        (fun p => some ((eqValues lv p.1).map (fun v => (v, p.2))))
  | _ + 1, _, [], _ => some (.error .expectedRightValue)
termination_by structural n _ _ _ => n

/-- Fuel-bounded mirror of `evalIfForm`. -/
def evalIfFormF : ℕ → List SExpr → InterpSt → Res (Value × InterpSt)
  | 0, _, _ => none
  | _ + 1, [], _ => some (.error .expectedCondition)
  | n + 1, condE :: rest, st =>
      bindR (evalF n condE st) (fun p => evalIfCondF n p.1 rest p.2)
termination_by structural n _ _ => n

/-- Fuel-bounded mirror of `evalIfCond`. -/
def evalIfCondF : ℕ → Value → List SExpr → InterpSt → Res (Value × InterpSt)
  | 0, _, _, _ => none
  | _ + 1, .bool _, [], _ => some (.error .expectedTrueBranch)
  | n + 1, .bool true, .list bl :: _, st1 =>
      mapR (fun st2 => (Value.void, st2)) (evalSeqF n bl st1)
  | _ + 1, .bool true, .atom a :: _, st1 =>
      some ((evalAtom a).map (fun v => (v, st1)))
  | n + 1, .bool false, _ :: rest2, st1 => evalIfElseF n rest2 st1
  | _ + 1, _, _, _ => some (.error .expectedBoolValue)
termination_by structural n _ _ _ => n

/-- Fuel-bounded mirror of `evalIfElse`. -/
def evalIfElseF : ℕ → List SExpr → InterpSt → Res (Value × InterpSt)
  | 0, _, _ => none
  | n + 1, .atom kw :: rest3, st1 =>
      if kw = "else" then evalIfElseBranchF n rest3 st1
      else some (.ok (Value.void, st1))
  | _ + 1, _, st1 => some (.ok (Value.void, st1))
termination_by structural n _ _ => n

/-- Fuel-bounded mirror of `evalIfElseBranch`. -/
def evalIfElseBranchF : ℕ → List SExpr → InterpSt → Res (Value × InterpSt)
  | 0, _, _ => none
  | _ + 1, [], _ => some (.error .expectedFalseBranch)
  | n + 1, .list bl :: _, st1 =>
      mapR (fun st2 => (Value.void, st2)) (evalSeqF n bl st1)
  | _ + 1, .atom a :: _, st1 => some ((evalAtom a).map (fun v => (v, st1)))
termination_by structural n _ _ => n

/-- Fuel-bounded mirror of `evalCountForm`. -/
def evalCountFormF : ℕ → List SExpr → InterpSt → Res (Value × InterpSt)
  | 0, _, _ => none
  | n + 1, .atom var :: .atom fromKw :: rest2, st =>
      if fromKw = "from" then evalCountStartF n var rest2 st
      else some (.error .expectedFromKeyword)
  | _ + 1, .atom _ :: _, _ => some (.error .expectedFromKeyword)
  | _ + 1, _, _ => some (.error .expectedVariableName)
termination_by structural n _ _ => n

/-- Fuel-bounded mirror of `evalCountStart`. -/
def evalCountStartF : ℕ → String → List SExpr → InterpSt → Res (Value × InterpSt)
  | 0, _, _, _ => none
  | _ + 1, _, [], _ => some (.error .expectedStartValue)
  | n + 1, var, startE :: rest3, st =>
      bindR (evalF n startE st) (fun p => evalCountToF n var p.1 rest3 p.2)
termination_by structural n _ _ _ => n

/-- Fuel-bounded mirror of `evalCountTo`. -/
def evalCountToF :
    ℕ → String → Value → List SExpr → InterpSt → Res (Value × InterpSt)
  | 0, _, _, _, _ => none
  | n + 1, var, .int s, .atom toKw :: rest4, st1 =>
      if toKw = "to" then evalCountEndF n var s rest4 st1
      else some (.error .expectedToKeyword)
  | _ + 1, _, .int _, _, _ => some (.error .expectedToKeyword)
  | _ + 1, _, _, _, _ => some (.error .expectedIntegerValue)
termination_by structural n _ _ _ _ => n

/-- Fuel-bounded mirror of `evalCountEnd`. -/
def evalCountEndF :
    ℕ → String → ℤ → List SExpr → InterpSt → Res (Value × InterpSt)
  | 0, _, _, _, _ => none
  | _ + 1, _, _, [], _ => some (.error .expectedEndValue)
  | n + 1, var, s, endE :: rest5, st1 =>
      bindR (evalF n endE st1) (fun p => evalCountBodyF n var s p.1 rest5 p.2)
termination_by structural n _ _ _ _ => n

/-- Fuel-bounded mirror of `evalCountBody`. -/
def evalCountBodyF :
    ℕ → String → ℤ → Value → List SExpr → InterpSt → Res (Value × InterpSt)
  | 0, _, _, _, _, _ => none
  | n + 1, var, s, .int e, .list bl :: _, st2 =>
      mapR (fun st3 => (Value.void, st3))
        (countLoopF n (intRange s (e - s).toNat) var bl st2)
  | _ + 1, _, _, .int _, .atom _ :: _, _ => some (.error .expectedListBody)
  | _ + 1, _, _, .int _, [], _ => some (.error .expectedBody)
  | _ + 1, _, _, _, _, _ => some (.error .expectedIntegerValue)
termination_by structural n _ _ _ _ _ => n

/-- Fuel-bounded mirror of `evalPrint`. -/
def evalPrintF : ℕ → List SExpr → InterpSt → Res InterpSt
  | 0, _, _ => none
  | _ + 1, [], st => some (.ok st)
  | n + 1, e :: rest, st =>
      bindR (evalF n e st)
        (fun p => evalPrintF n rest { p.2 with out := p.2.out ++ [p.1.render] })
termination_by structural n _ _ => n

/-- Fuel-bounded mirror of `evalArgs`. -/
def evalArgsF : ℕ → List SExpr → InterpSt → Res (List Value × InterpSt)
  | 0, _, _ => none
  | _ + 1, [], st => some (.ok ([], st))
  | n + 1, e :: rest, st =>
      bindR (evalF n e st)
        (fun p => mapR (fun q => (p.1 :: q.1, q.2)) (evalArgsF n rest p.2))
termination_by structural n _ _ => n

/-- Fuel-bounded mirror of `evalSeq`. -/
def evalSeqF : ℕ → List SExpr → InterpSt → Res InterpSt
  | 0, _, _ => none
  | _ + 1, [], st => some (.ok st)
  | n + 1, e :: rest, st => bindR (evalF n e st) (fun p => evalSeqF n rest p.2)
termination_by structural n _ _ => n

/-- Fuel-bounded mirror of `countLoop`. -/
def countLoopF : ℕ → List ℤ → String → List SExpr → InterpSt → Res InterpSt
  | 0, _, _, _, _ => none
  | _ + 1, [], _, _, st => some (.ok st)
  | n + 1, i :: is_, var, body, st =>
      bindR (evalSeqF n body { st with vars := envInsert var (Value.int i) st.vars })
        (fun st1 => countLoopF n is_ var body st1)
termination_by structural n _ _ _ _ => n

end

/-- Soundness relation of a fuel-bounded result against the real one:
whenever the bounded run completed, it agrees. -/
def models {A : Type} (X : Res A) (x : Except Err A) : Prop :=
  ∀ r, X = some r → x = r

/-- A value of numeric kind (`Int` or `Float`). -/
def Value.isNumeric : Value → Bool
  | .int _ => true
  | .float _ => true
  | _ => false

/-- Two values of the same variant (the only pairs `eq` compares). -/
def Value.sameVariant : Value → Value → Bool
  | .int _, .int _ => true
  | .float _, .float _ => true
  | .string _, .string _ => true
  | .bool _, .bool _ => true
  | .null, .null => true
  | .void, .void => true
  | _, _ => false

/-- Modelled from the spec: the error kinds enumerated in spec section 7
(the parser-side `SyntaxError` is omitted; no evaluator abort maps to
it). -/
inductive SpecErrKind where
  | unknownAtomError
  | malformedFormError
  | unknownFormError
  | arityError
  | unboundVariableError
  | typeMismatchError
deriving DecidableEq

/-- Modelled from the spec: classification of each evaluator abort into
the error kinds of spec section 7; `none` for an abort the spec does not
enumerate.  Missing-argument and trailing-token panics are `ArityError`
("wrong number of arguments to a form, including unconsumed trailing
tokens"), wrong-variant panics are `TypeMismatchError`, the unknown
form/atom and unbound-variable panics match their namesake kinds, and a
list in form-name position is a `MalformedFormError`.  The three
runtime arithmetic panics (division by zero and remainder overflow in
`%`, add overflow in `inc`) are not in the spec's enumeration. -/
def specErrorKind : Err → Option SpecErrKind
  | .expectedFunctionName => some .malformedFormError
  | .expectedFormatString => some .arityError
  | .expectedVariableName => some .arityError
  | .expectedValue => some .arityError
  | .expectedEndOfList => some .arityError
  | .variableNotFound _ => some .unboundVariableError
  | .variableNotInteger _ => some .typeMismatchError
  | .expectedLeftValue => some .arityError
  | .expectedRightValue => some .arityError
  | .expectedIntOrFloat => some .typeMismatchError
  | .expectedCondition => some .arityError
  | .expectedBoolValue => some .typeMismatchError
  | .expectedTrueBranch => some .arityError
  | .expectedFalseBranch => some .arityError
  | .expectedFromKeyword => some .arityError
  | .expectedToKeyword => some .arityError
  | .expectedIntegerValue => some .typeMismatchError
  | .expectedStartValue => some .arityError
  | .expectedEndValue => some .arityError
  | .expectedBody => some .arityError
  | .expectedListBody => some .typeMismatchError
  | .unknownFunction _ => some .unknownFormError
  | .unknownAtom _ => some .unknownAtomError
  | .divByZero => none
  | .remOverflow => none
  | .addOverflow => none


/-- Rewriting helpers for `Except` (definitional, stated once so concrete
evaluations never unfold `bind`/`map` into match expressions). -/
theorem exc_bind_ok {A B : Type} (a : A) (f : A → Except Err B) :
    (Except.ok a : Except Err A).bind f = f a := rfl

theorem exc_bind_error {A B : Type} (e : Err) (f : A → Except Err B) :
    (Except.error e : Except Err A).bind f = .error e := rfl

theorem exc_map_ok {A B : Type} (a : A) (f : A → B) :
    (Except.ok a : Except Err A).map f = .ok (f a) := rfl

theorem exc_map_error {A B : Type} (e : Err) (f : A → B) :
    (Except.error e : Except Err A).map f = .error e := rfl

/-! Unfolding lemmas for the mutually recursive evaluator.  The
well-founded compilation of the `mutual` block means the definitions do
not reduce definitionally; each equation is proved once here and reused
by every later proof. -/

set_option maxHeartbeats 1000000 in
/-- Atom evaluation never touches the state: the result is produced by
the state-free `evalAtom` and the state is returned unchanged. -/
theorem eval_atom_eq (a : String) (st : InterpSt) :
    eval (.atom a) st = (evalAtom a).map (fun v => (v, st)) := by
  simp [eval]

set_option maxHeartbeats 1000000 in
theorem eval_nil_eq (st : InterpSt) :
    eval (.list []) st = .error .expectedFunctionName := by
  simp [eval]

set_option maxHeartbeats 1000000 in
theorem eval_headlist_eq (h : List SExpr) (t : List SExpr) (st : InterpSt) :
    eval (.list (.list h :: t)) st = .error .expectedFunctionName := by
  simp [eval]

set_option maxHeartbeats 1000000 in
theorem eval_call (f : String) (args : List SExpr) (st : InterpSt) :
    eval (.list (.atom f :: args)) st = evalForm f args st := by
  simp [eval]

set_option maxHeartbeats 1000000 in
theorem evalForm_print (args : List SExpr) (st : InterpSt) :
    evalForm "print" args st
      = (evalPrint args st).map (fun st1 => (Value.void, st1)) := by
  simp [evalForm]

set_option maxHeartbeats 1000000 in
theorem evalForm_format (args : List SExpr) (st : InterpSt) :
    evalForm "format" args st = evalFormatForm args st := by
  simp [evalForm]

set_option maxHeartbeats 1000000 in
theorem evalForm_let (args : List SExpr) (st : InterpSt) :
    evalForm "let" args st = evalLetForm args st := by
  simp [evalForm]

set_option maxHeartbeats 1000000 in
theorem evalForm_set (args : List SExpr) (st : InterpSt) :
    evalForm "set" args st = evalSetForm args st := by
  simp [evalForm]

set_option maxHeartbeats 1000000 in
theorem evalForm_get (args : List SExpr) (st : InterpSt) :
    evalForm "get" args st = evalGetForm args st := by
  simp [evalForm]

set_option maxHeartbeats 1000000 in
theorem evalForm_inc (args : List SExpr) (st : InterpSt) :
    evalForm "inc" args st = evalIncForm args st := by
  simp [evalForm]

set_option maxHeartbeats 1000000 in
theorem evalForm_mod (args : List SExpr) (st : InterpSt) :
    evalForm "mod" args st = evalModForm args st := by
  simp [evalForm]

set_option maxHeartbeats 1000000 in
theorem evalForm_eq (args : List SExpr) (st : InterpSt) :
    evalForm "eq" args st = evalEqForm args st := by
  simp [evalForm]

set_option maxHeartbeats 1000000 in
theorem evalForm_if (args : List SExpr) (st : InterpSt) :
    evalForm "if" args st = evalIfForm args st := by
  simp [evalForm]

set_option maxHeartbeats 1000000 in
theorem evalForm_count (args : List SExpr) (st : InterpSt) :
    evalForm "count" args st = evalCountForm args st := by
  simp [evalForm]

set_option maxHeartbeats 1000000 in
theorem evalPrint_nil (st : InterpSt) : evalPrint [] st = .ok st := by
  simp [evalPrint]

set_option maxHeartbeats 1000000 in
theorem evalPrint_cons (e : SExpr) (rest : List SExpr) (st : InterpSt) :
    evalPrint (e :: rest) st
      = (eval e st).bind
          (fun p => evalPrint rest { p.2 with out := p.2.out ++ [p.1.render] }) := by
  simp [evalPrint]

set_option maxHeartbeats 1000000 in
theorem evalLetForm_run (x : String) (vexp : SExpr) (st : InterpSt) :
    evalLetForm [.atom x, vexp] st
      = (eval vexp st).map
          (fun p => (Value.void, { p.2 with vars := envInsert x p.1 p.2.vars })) := by
  simp [evalLetForm]

set_option maxHeartbeats 1000000 in
theorem evalLetForm_extra (x : String) (v e : SExpr) (rest : List SExpr)
    (st : InterpSt) :
    evalLetForm (.atom x :: v :: e :: rest) st = .error .expectedEndOfList := by
  simp [evalLetForm]

set_option maxHeartbeats 1000000 in
theorem evalSetForm_run (x : String) (vexp : SExpr) (st : InterpSt) :
    evalSetForm [.atom x, vexp] st
      = (eval vexp st).map
          (fun p => (p.1, { p.2 with vars := envInsert x p.1 p.2.vars })) := by
  simp [evalSetForm]

set_option maxHeartbeats 1000000 in
theorem evalSetForm_extra (x : String) (v e : SExpr) (rest : List SExpr)
    (st : InterpSt) :
    evalSetForm (.atom x :: v :: e :: rest) st = .error .expectedEndOfList := by
  simp [evalSetForm]

set_option maxHeartbeats 1000000 in
theorem evalModForm_cons (lexp : SExpr) (rest : List SExpr) (st : InterpSt) :
    evalModForm (lexp :: rest) st
      = (eval lexp st).bind (fun p => evalModRight p.1 rest p.2) := by
  simp [evalModForm]

set_option maxHeartbeats 1000000 in
theorem evalModRight_cons (lv : Value) (rexp : SExpr) (rest : List SExpr)
    (st1 : InterpSt) :
    evalModRight lv (rexp :: rest) st1
      = (eval rexp st1).bind
          (fun p => (modValues lv p.1).map (fun v => (v, p.2))) := by
  simp [evalModRight]

set_option maxHeartbeats 1000000 in
theorem evalEqForm_cons (lexp : SExpr) (rest : List SExpr) (st : InterpSt) :
    evalEqForm (lexp :: rest) st
      = (eval lexp st).bind (fun p => evalEqRight p.1 rest p.2) := by
  simp [evalEqForm]

set_option maxHeartbeats 1000000 in
theorem evalEqRight_cons (lv : Value) (rexp : SExpr) (rest : List SExpr)
    (st1 : InterpSt) :
    evalEqRight lv (rexp :: rest) st1
      = (eval rexp st1).bind
          (fun p => (eqValues lv p.1).map (fun v => (v, p.2))) := by
  simp [evalEqRight]

set_option maxHeartbeats 1000000 in
theorem evalIfForm_cons (condE : SExpr) (rest : List SExpr) (st : InterpSt) :
    evalIfForm (condE :: rest) st
      = (eval condE st).bind (fun p => evalIfCond p.1 rest p.2) := by
  simp [evalIfForm]

set_option maxHeartbeats 1000000 in
theorem evalIfCond_noBranch (b : Bool) (st1 : InterpSt) :
    evalIfCond (.bool b) [] st1 = .error .expectedTrueBranch := by
  simp [evalIfCond]

set_option maxHeartbeats 1000000 in
theorem evalIfCond_true_list (bl : List SExpr) (rest2 : List SExpr)
    (st1 : InterpSt) :
    evalIfCond (.bool true) (.list bl :: rest2) st1
      = (evalSeq bl st1).map (fun st2 => (Value.void, st2)) := by
  simp [evalIfCond]

set_option maxHeartbeats 1000000 in
theorem evalIfCond_true_atom (a : String) (rest2 : List SExpr)
    (st1 : InterpSt) :
    evalIfCond (.bool true) (.atom a :: rest2) st1
      = (evalAtom a).map (fun v => (v, st1)) := by
  simp [evalIfCond]

set_option maxHeartbeats 1000000 in
theorem evalIfCond_false (tb : SExpr) (rest2 : List SExpr) (st1 : InterpSt) :
    evalIfCond (.bool false) (tb :: rest2) st1 = evalIfElse rest2 st1 := by
  cases tb <;> simp [evalIfCond]

set_option maxHeartbeats 1000000 in
theorem evalIfElse_atom (kw : String) (rest3 : List SExpr) (st1 : InterpSt) :
    evalIfElse (.atom kw :: rest3) st1
      = if kw = "else" then evalIfElseBranch rest3 st1
        else .ok (Value.void, st1) := by
  simp [evalIfElse]

set_option maxHeartbeats 1000000 in
theorem evalIfElse_nil (st1 : InterpSt) :
    evalIfElse [] st1 = .ok (Value.void, st1) := by
  simp [evalIfElse]

set_option maxHeartbeats 1000000 in
theorem evalIfElse_list (h : List SExpr) (rest3 : List SExpr) (st1 : InterpSt) :
    evalIfElse (.list h :: rest3) st1 = .ok (Value.void, st1) := by
  simp [evalIfElse]

set_option maxHeartbeats 1000000 in
theorem evalIfElseBranch_nil (st1 : InterpSt) :
    evalIfElseBranch [] st1 = .error .expectedFalseBranch := by
  simp [evalIfElseBranch]

set_option maxHeartbeats 1000000 in
theorem evalIfElseBranch_list (bl : List SExpr) (rest : List SExpr)
    (st1 : InterpSt) :
    evalIfElseBranch (.list bl :: rest) st1
      = (evalSeq bl st1).map (fun st2 => (Value.void, st2)) := by
  simp [evalIfElseBranch]

set_option maxHeartbeats 1000000 in
theorem evalIfElseBranch_atom (a : String) (rest : List SExpr)
    (st1 : InterpSt) :
    evalIfElseBranch (.atom a :: rest) st1
      = (evalAtom a).map (fun v => (v, st1)) := by
  simp [evalIfElseBranch]

set_option maxHeartbeats 1000000 in
theorem evalCountForm_run (var fromKw : String) (rest2 : List SExpr)
    (st : InterpSt) :
    evalCountForm (.atom var :: .atom fromKw :: rest2) st
      = if fromKw = "from" then evalCountStart var rest2 st
        else .error .expectedFromKeyword := by
  simp [evalCountForm]

set_option maxHeartbeats 1000000 in
theorem evalCountStart_cons (var : String) (startE : SExpr)
    (rest3 : List SExpr) (st : InterpSt) :
    evalCountStart var (startE :: rest3) st
      = (eval startE st).bind (fun p => evalCountTo var p.1 rest3 p.2) := by
  simp [evalCountStart]

set_option maxHeartbeats 1000000 in
theorem evalCountTo_run (var : String) (s : ℤ) (toKw : String)
    (rest4 : List SExpr) (st1 : InterpSt) :
    evalCountTo var (.int s) (.atom toKw :: rest4) st1
      = if toKw = "to" then evalCountEnd var s rest4 st1
        else .error .expectedToKeyword := by
  simp [evalCountTo]

set_option maxHeartbeats 1000000 in
theorem evalCountEnd_cons (var : String) (s : ℤ) (endE : SExpr)
    (rest5 : List SExpr) (st1 : InterpSt) :
    evalCountEnd var s (endE :: rest5) st1
      = (eval endE st1).bind (fun p => evalCountBody var s p.1 rest5 p.2) := by
  simp [evalCountEnd]

set_option maxHeartbeats 1000000 in
theorem evalCountBody_run (var : String) (s e : ℤ) (bl : List SExpr)
    (rest6 : List SExpr) (st2 : InterpSt) :
    evalCountBody var s (.int e) (.list bl :: rest6) st2
      = (countLoop (intRange s (e - s).toNat) var bl st2).map
          (fun st3 => (Value.void, st3)) := by
  simp [evalCountBody]

set_option maxHeartbeats 1000000 in
theorem evalSeq_nil (st : InterpSt) : evalSeq [] st = .ok st := by
  simp [evalSeq]

set_option maxHeartbeats 1000000 in
theorem evalSeq_cons (e : SExpr) (rest : List SExpr) (st : InterpSt) :
    evalSeq (e :: rest) st = (eval e st).bind (fun p => evalSeq rest p.2) := by
  simp [evalSeq]

set_option maxHeartbeats 1000000 in
theorem countLoop_nil (var : String) (body : List SExpr) (st : InterpSt) :
    countLoop [] var body st = .ok st := by
  simp [countLoop]

set_option maxHeartbeats 1000000 in
theorem countLoop_cons (i : ℤ) (is_ : List ℤ) (var : String)
    (body : List SExpr) (st : InterpSt) :
    countLoop (i :: is_) var body st
      = (evalSeq body { st with vars := envInsert var (Value.int i) st.vars }).bind
          (fun st1 => countLoop is_ var body st1) := by
  simp [countLoop]



set_option maxHeartbeats 1000000 in
/-- General unfolding of the `evalForm` dispatch chain. -/
theorem evalForm_unfold (fname : String) (args : List SExpr) (st : InterpSt) :
    evalForm fname args st
      = if fname = "print" then
          (evalPrint args st).map (fun st1 => (Value.void, st1))
        else if fname = "format" then evalFormatForm args st
        else if fname = "let" then evalLetForm args st
        else if fname = "set" then evalSetForm args st
        else if fname = "get" then evalGetForm args st
        else if fname = "inc" then evalIncForm args st
        else if fname = "mod" then evalModForm args st
        else if fname = "eq" then evalEqForm args st
        else if fname = "if" then evalIfForm args st
        else if fname = "count" then evalCountForm args st
        else .error (.unknownFunction fname) := by
  simp [evalForm]

set_option maxHeartbeats 1000000 in
theorem evalFormatForm_atom (fmt : String) (rest : List SExpr) (st : InterpSt) :
    evalFormatForm (.atom fmt :: rest) st
      = (evalArgs rest st).map
          (fun p => (Value.string (formatTemplate fmt p.1), p.2)) := by
  simp [evalFormatForm]

set_option maxHeartbeats 1000000 in
theorem evalFormatForm_nil (st : InterpSt) :
    evalFormatForm [] st = .error .expectedFormatString := by
  simp [evalFormatForm]

set_option maxHeartbeats 1000000 in
theorem evalFormatForm_list (h : List SExpr) (t : List SExpr) (st : InterpSt) :
    evalFormatForm (.list h :: t) st = .error .expectedFormatString := by
  simp [evalFormatForm]

set_option maxHeartbeats 1000000 in
theorem evalLetForm_nil (st : InterpSt) :
    evalLetForm [] st = .error .expectedVariableName := by
  simp [evalLetForm]

set_option maxHeartbeats 1000000 in
theorem evalLetForm_listhead (h : List SExpr) (t : List SExpr) (st : InterpSt) :
    evalLetForm (.list h :: t) st = .error .expectedVariableName := by
  simp [evalLetForm]

set_option maxHeartbeats 1000000 in
theorem evalLetForm_single (x : String) (st : InterpSt) :
    evalLetForm [.atom x] st = .error .expectedValue := by
  simp [evalLetForm]

set_option maxHeartbeats 1000000 in
theorem evalSetForm_nil (st : InterpSt) :
    evalSetForm [] st = .error .expectedVariableName := by
  simp [evalSetForm]

set_option maxHeartbeats 1000000 in
theorem evalSetForm_listhead (h : List SExpr) (t : List SExpr) (st : InterpSt) :
    evalSetForm (.list h :: t) st = .error .expectedVariableName := by
  simp [evalSetForm]

set_option maxHeartbeats 1000000 in
theorem evalSetForm_single (x : String) (st : InterpSt) :
    evalSetForm [.atom x] st = .error .expectedValue := by
  simp [evalSetForm]

set_option maxHeartbeats 1000000 in
theorem evalModForm_nil (st : InterpSt) :
    evalModForm [] st = .error .expectedLeftValue := by
  simp [evalModForm]

set_option maxHeartbeats 1000000 in
theorem evalModRight_nil (lv : Value) (st : InterpSt) :
    evalModRight lv [] st = .error .expectedRightValue := by
  simp [evalModRight]

set_option maxHeartbeats 1000000 in
theorem evalEqForm_nil (st : InterpSt) :
    evalEqForm [] st = .error .expectedLeftValue := by
  simp [evalEqForm]

set_option maxHeartbeats 1000000 in
theorem evalEqRight_nil (lv : Value) (st : InterpSt) :
    evalEqRight lv [] st = .error .expectedRightValue := by
  simp [evalEqRight]

set_option maxHeartbeats 1000000 in
theorem evalIfForm_nil (st : InterpSt) :
    evalIfForm [] st = .error .expectedCondition := by
  simp [evalIfForm]

set_option maxHeartbeats 1000000 in
theorem evalIfCond_int (m : ℤ) (rest : List SExpr) (st1 : InterpSt) :
    evalIfCond (.int m) rest st1 = .error .expectedBoolValue := by
  simp [evalIfCond]

set_option maxHeartbeats 1000000 in
theorem evalIfCond_float (x : F64) (rest : List SExpr) (st1 : InterpSt) :
    evalIfCond (.float x) rest st1 = .error .expectedBoolValue := by
  simp [evalIfCond]

set_option maxHeartbeats 1000000 in
theorem evalIfCond_string (s : String) (rest : List SExpr) (st1 : InterpSt) :
    evalIfCond (.string s) rest st1 = .error .expectedBoolValue := by
  simp [evalIfCond]

set_option maxHeartbeats 1000000 in
theorem evalIfCond_null (rest : List SExpr) (st1 : InterpSt) :
    evalIfCond .null rest st1 = .error .expectedBoolValue := by
  simp [evalIfCond]

set_option maxHeartbeats 1000000 in
theorem evalIfCond_void (rest : List SExpr) (st1 : InterpSt) :
    evalIfCond .void rest st1 = .error .expectedBoolValue := by
  simp [evalIfCond]

set_option maxHeartbeats 1000000 in
theorem evalCountForm_nil (st : InterpSt) :
    evalCountForm [] st = .error .expectedVariableName := by
  simp [evalCountForm]

set_option maxHeartbeats 1000000 in
theorem evalCountForm_listhead (h : List SExpr) (t : List SExpr)
    (st : InterpSt) :
    evalCountForm (.list h :: t) st = .error .expectedVariableName := by
  simp [evalCountForm]

set_option maxHeartbeats 1000000 in
theorem evalCountForm_single (v : String) (st : InterpSt) :
    evalCountForm [.atom v] st = .error .expectedFromKeyword := by
  simp [evalCountForm]

set_option maxHeartbeats 1000000 in
theorem evalCountForm_atom_list (v : String) (h : List SExpr)
    (t : List SExpr) (st : InterpSt) :
    evalCountForm (.atom v :: .list h :: t) st
      = .error .expectedFromKeyword := by
  simp [evalCountForm]

set_option maxHeartbeats 1000000 in
theorem evalCountStart_nil (var : String) (st : InterpSt) :
    evalCountStart var [] st = .error .expectedStartValue := by
  simp [evalCountStart]

set_option maxHeartbeats 1000000 in
theorem evalCountTo_int_nil (var : String) (s : ℤ) (st1 : InterpSt) :
    evalCountTo var (.int s) [] st1 = .error .expectedToKeyword := by
  simp [evalCountTo]

set_option maxHeartbeats 1000000 in
theorem evalCountTo_int_list (var : String) (s : ℤ) (h : List SExpr)
    (t : List SExpr) (st1 : InterpSt) :
    evalCountTo var (.int s) (.list h :: t) st1
      = .error .expectedToKeyword := by
  simp [evalCountTo]

set_option maxHeartbeats 1000000 in
theorem evalCountTo_float (var : String) (x : F64) (rest : List SExpr)
    (st1 : InterpSt) :
    evalCountTo var (.float x) rest st1 = .error .expectedIntegerValue := by
  simp [evalCountTo]

set_option maxHeartbeats 1000000 in
theorem evalCountTo_string (var : String) (s : String) (rest : List SExpr)
    (st1 : InterpSt) :
    evalCountTo var (.string s) rest st1 = .error .expectedIntegerValue := by
  simp [evalCountTo]

set_option maxHeartbeats 1000000 in
theorem evalCountTo_bool (var : String) (b : Bool) (rest : List SExpr)
    (st1 : InterpSt) :
    evalCountTo var (.bool b) rest st1 = .error .expectedIntegerValue := by
  simp [evalCountTo]

set_option maxHeartbeats 1000000 in
theorem evalCountTo_null (var : String) (rest : List SExpr) (st1 : InterpSt) :
    evalCountTo var .null rest st1 = .error .expectedIntegerValue := by
  simp [evalCountTo]

set_option maxHeartbeats 1000000 in
theorem evalCountTo_void (var : String) (rest : List SExpr) (st1 : InterpSt) :
    evalCountTo var .void rest st1 = .error .expectedIntegerValue := by
  simp [evalCountTo]

set_option maxHeartbeats 1000000 in
theorem evalCountEnd_nil (var : String) (s : ℤ) (st1 : InterpSt) :
    evalCountEnd var s [] st1 = .error .expectedEndValue := by
  simp [evalCountEnd]

set_option maxHeartbeats 1000000 in
theorem evalCountBody_atom (var : String) (s e : ℤ) (a : String)
    (t : List SExpr) (st2 : InterpSt) :
    evalCountBody var s (.int e) (.atom a :: t) st2
      = .error .expectedListBody := by
  simp [evalCountBody]

set_option maxHeartbeats 1000000 in
theorem evalCountBody_nil (var : String) (s e : ℤ) (st2 : InterpSt) :
    evalCountBody var s (.int e) [] st2 = .error .expectedBody := by
  simp [evalCountBody]

set_option maxHeartbeats 1000000 in
theorem evalCountBody_float (var : String) (s : ℤ) (x : F64)
    (rest : List SExpr) (st2 : InterpSt) :
    evalCountBody var s (.float x) rest st2
      = .error .expectedIntegerValue := by
  simp [evalCountBody]

set_option maxHeartbeats 1000000 in
theorem evalCountBody_string (var : String) (s : ℤ) (t : String)
    (rest : List SExpr) (st2 : InterpSt) :
    evalCountBody var s (.string t) rest st2
      = .error .expectedIntegerValue := by
  simp [evalCountBody]

set_option maxHeartbeats 1000000 in
theorem evalCountBody_bool (var : String) (s : ℤ) (b : Bool)
    (rest : List SExpr) (st2 : InterpSt) :
    evalCountBody var s (.bool b) rest st2
      = .error .expectedIntegerValue := by
  simp [evalCountBody]

set_option maxHeartbeats 1000000 in
theorem evalCountBody_null (var : String) (s : ℤ) (rest : List SExpr)
    (st2 : InterpSt) :
    evalCountBody var s .null rest st2 = .error .expectedIntegerValue := by
  simp [evalCountBody]

set_option maxHeartbeats 1000000 in
theorem evalCountBody_void (var : String) (s : ℤ) (rest : List SExpr)
    (st2 : InterpSt) :
    evalCountBody var s .void rest st2 = .error .expectedIntegerValue := by
  simp [evalCountBody]

set_option maxHeartbeats 1000000 in
theorem evalArgs_nil (st : InterpSt) : evalArgs [] st = .ok ([], st) := by
  simp [evalArgs]

set_option maxHeartbeats 1000000 in
theorem evalArgs_cons (e : SExpr) (rest : List SExpr) (st : InterpSt) :
    evalArgs (e :: rest) st
      = (eval e st).bind
          (fun p => (evalArgs rest p.2).map (fun q => (p.1 :: q.1, q.2))) := by
  simp [evalArgs]

/-- An exhausted run models anything. -/
theorem models_none {A : Type} (x : Except Err A) : models (none : Res A) x :=
  fun _ h => Option.noConfusion h

/-- A completed run models exactly its value. -/
theorem models_some {A : Type} (x : Except Err A) : models (some x) x :=
  fun _ h => Option.some.inj h

/-- `models` is preserved by sequencing. -/
theorem models_bind {A B : Type} {X : Res A} {x : Except Err A}
    {F : A → Res B} {f : A → Except Err B}
    (hX : models X x) (hF : ∀ a, models (F a) (f a)) :
    models (bindR X F) (x.bind f) := by
  intro r h
  cases hXv : X with
  | none => rw [hXv] at h; exact Option.noConfusion h
  | some xe =>
      rw [hXv] at h
      rw [hX xe hXv]
      cases xe with
      | error e =>
          simp only [bindR] at h
          cases h
          rfl
      | ok a =>
          simp only [bindR] at h
          exact hF a r h

/-- `models` is preserved by mapping. -/
theorem models_map {A B : Type} (g : A → B) {X : Res A} {x : Except Err A}
    (hX : models X x) : models (mapR g X) (x.map g) := by
  intro r h
  cases hXv : X with
  | none => rw [hXv] at h; exact Option.noConfusion h
  | some xe =>
      rw [hXv] at h
      rw [hX xe hXv]
      cases xe with
      | error e => simp only [mapR] at h; cases h; rfl
      | ok a => simp only [mapR] at h; cases h; rfl


set_option maxHeartbeats 2000000 in
/-- Soundness of the fuel-bounded mirror: every completed mirror run
agrees with the well-founded evaluator, for all entry points at once. -/
theorem evalF_sound_all : ∀ n : ℕ,
    (∀ s st, models (evalF n s st) (eval s st)) ∧
    (∀ f args st, models (evalFormF n f args st) (evalForm f args st)) ∧
    (∀ args st, models (evalFormatFormF n args st) (evalFormatForm args st)) ∧
    (∀ args st, models (evalLetFormF n args st) (evalLetForm args st)) ∧
    (∀ args st, models (evalSetFormF n args st) (evalSetForm args st)) ∧
    (∀ args st, models (evalModFormF n args st) (evalModForm args st)) ∧
    (∀ lv args st, models (evalModRightF n lv args st) (evalModRight lv args st)) ∧
    (∀ args st, models (evalEqFormF n args st) (evalEqForm args st)) ∧
    (∀ lv args st, models (evalEqRightF n lv args st) (evalEqRight lv args st)) ∧
    (∀ args st, models (evalIfFormF n args st) (evalIfForm args st)) ∧
    (∀ v args st, models (evalIfCondF n v args st) (evalIfCond v args st)) ∧
    (∀ args st, models (evalIfElseF n args st) (evalIfElse args st)) ∧
    (∀ args st, models (evalIfElseBranchF n args st) (evalIfElseBranch args st)) ∧
    (∀ args st, models (evalCountFormF n args st) (evalCountForm args st)) ∧
    (∀ var args st, models (evalCountStartF n var args st) (evalCountStart var args st)) ∧
    (∀ var v args st, models (evalCountToF n var v args st) (evalCountTo var v args st)) ∧
    (∀ var s args st, models (evalCountEndF n var s args st) (evalCountEnd var s args st)) ∧
    (∀ var s v args st, models (evalCountBodyF n var s v args st) (evalCountBody var s v args st)) ∧
    (∀ args st, models (evalPrintF n args st) (evalPrint args st)) ∧
    (∀ args st, models (evalArgsF n args st) (evalArgs args st)) ∧
    (∀ args st, models (evalSeqF n args st) (evalSeq args st)) ∧
    (∀ l var body st, models (countLoopF n l var body st) (countLoop l var body st)) := by
  intro n
  induction n with
  | zero =>
      exact ⟨fun _ _ => models_none _, fun _ _ _ => models_none _,
        fun _ _ => models_none _, fun _ _ => models_none _,
        fun _ _ => models_none _, fun _ _ => models_none _,
        fun _ _ _ => models_none _, fun _ _ => models_none _,
        fun _ _ _ => models_none _, fun _ _ => models_none _,
        fun _ _ _ => models_none _, fun _ _ => models_none _,
        fun _ _ => models_none _, fun _ _ => models_none _,
        fun _ _ _ => models_none _, fun _ _ _ _ => models_none _,
        fun _ _ _ _ => models_none _, fun _ _ _ _ _ => models_none _,
        fun _ _ => models_none _, fun _ _ => models_none _,
        fun _ _ => models_none _, fun _ _ _ _ => models_none _⟩
  | succ n ih =>
      obtain ⟨ihEval, ihForm, ihFormat, ihLet, ihSet, ihMod, ihModR, ihEq,
        ihEqR, ihIf, ihIfC, ihIfE, ihIfEB, ihCF, ihCS, ihCT, ihCE, ihCB,
        ihPrint, ihArgs, ihSeq, ihLoop⟩ := ih
      refine ⟨?_, ?_, ?_, ?_, ?_, ?_, ?_, ?_, ?_, ?_, ?_, ?_, ?_, ?_, ?_,
        ?_, ?_, ?_, ?_, ?_, ?_, ?_⟩
      -- eval
      · intro s st
        cases s with
        | atom a => rw [eval_atom_eq]; exact models_some _
        | list l =>
            cases l with
            | nil => rw [eval_nil_eq]; exact models_some _
            | cons hd tl =>
                cases hd with
                | atom fname => rw [eval_call]; exact ihForm fname tl st
                | list h => rw [eval_headlist_eq]; exact models_some _
      -- evalForm
      · intro f args st
        simp only [evalFormF]
        rw [evalForm_unfold]
        split_ifs
        · exact models_map _ (ihPrint args st)
        · exact ihFormat args st
        · exact ihLet args st
        · exact ihSet args st
        · exact models_some _
        · exact models_some _
        · exact ihMod args st
        · exact ihEq args st
        · exact ihIf args st
        · exact ihCF args st
        · exact models_some _
      -- evalFormatForm
      · intro args st
        cases args with
        | nil => rw [evalFormatForm_nil]; exact models_some _
        | cons hd tl =>
            cases hd with
            | atom fmt => rw [evalFormatForm_atom]; exact models_map _ (ihArgs tl st)
            | list h => rw [evalFormatForm_list]; exact models_some _
      -- evalLetForm
      · intro args st
        cases args with
        | nil => rw [evalLetForm_nil]; exact models_some _
        | cons hd tl =>
            cases hd with
            | list h => rw [evalLetForm_listhead]; exact models_some _
            | atom x =>
                cases tl with
                | nil => rw [evalLetForm_single]; exact models_some _
                | cons v tl2 =>
                    cases tl2 with
                    | nil => rw [evalLetForm_run]; exact models_map _ (ihEval v st)
                    | cons e3 tl3 => rw [evalLetForm_extra]; exact models_some _
      -- evalSetForm
      · intro args st
        cases args with
        | nil => rw [evalSetForm_nil]; exact models_some _
        | cons hd tl =>
            cases hd with
            | list h => rw [evalSetForm_listhead]; exact models_some _
            | atom x =>
                cases tl with
                | nil => rw [evalSetForm_single]; exact models_some _
                | cons v tl2 =>
                    cases tl2 with
                    | nil => rw [evalSetForm_run]; exact models_map _ (ihEval v st)
                    | cons e3 tl3 => rw [evalSetForm_extra]; exact models_some _
      -- evalModForm
      · intro args st
        cases args with
        | nil => rw [evalModForm_nil]; exact models_some _
        | cons lexp rest =>
            rw [evalModForm_cons]
            exact models_bind (ihEval lexp st) (fun p => ihModR p.1 rest p.2)
      -- evalModRight
      · intro lv args st
        cases args with
        | nil => rw [evalModRight_nil]; exact models_some _
        | cons rexp rest =>
            rw [evalModRight_cons]
            exact models_bind (ihEval rexp st) (fun p => models_some _)
      -- evalEqForm
      · intro args st
        cases args with
        | nil => rw [evalEqForm_nil]; exact models_some _
        | cons lexp rest =>
            rw [evalEqForm_cons]
            exact models_bind (ihEval lexp st) (fun p => ihEqR p.1 rest p.2)
      -- evalEqRight
      · intro lv args st
        cases args with
        | nil => rw [evalEqRight_nil]; exact models_some _
        | cons rexp rest =>
            rw [evalEqRight_cons]
            exact models_bind (ihEval rexp st) (fun p => models_some _)
      -- evalIfForm
      · intro args st
        cases args with
        | nil => rw [evalIfForm_nil]; exact models_some _
        | cons condE rest =>
            rw [evalIfForm_cons]
            exact models_bind (ihEval condE st) (fun p => ihIfC p.1 rest p.2)
      -- evalIfCond
      · intro v args st
        cases v with
        | bool b =>
            cases args with
            | nil =>
                rw [evalIfCond_noBranch]
                cases b <;> exact models_some _
            | cons tb rest2 =>
                cases b with
                | true =>
                    cases tb with
                    | list bl =>
                        rw [evalIfCond_true_list]
                        exact models_map _ (ihSeq bl st)
                    | atom a => rw [evalIfCond_true_atom]; exact models_some _
                | false =>
                    rw [evalIfCond_false]
                    cases tb with
                    | list bl => exact ihIfE rest2 st
                    | atom a => exact ihIfE rest2 st
        | int m => rw [evalIfCond_int]; exact models_some _
        | float x => rw [evalIfCond_float]; exact models_some _
        | string s2 => rw [evalIfCond_string]; exact models_some _
        | null => rw [evalIfCond_null]; exact models_some _
        | void => rw [evalIfCond_void]; exact models_some _
      -- evalIfElse
      · intro args st
        cases args with
        | nil => rw [evalIfElse_nil]; exact models_some _
        | cons hd rest3 =>
            cases hd with
            | atom kw =>
                rw [evalIfElse_atom]
                simp only [evalIfElseF]
                split_ifs
                · exact ihIfEB rest3 st
                · exact models_some _
            | list h => rw [evalIfElse_list]; exact models_some _
      -- evalIfElseBranch
      · intro args st
        cases args with
        | nil => rw [evalIfElseBranch_nil]; exact models_some _
        | cons hd rest =>
            cases hd with
            | list bl =>
                rw [evalIfElseBranch_list]
                exact models_map _ (ihSeq bl st)
            | atom a => rw [evalIfElseBranch_atom]; exact models_some _
      -- evalCountForm
      · intro args st
        cases args with
        | nil => rw [evalCountForm_nil]; exact models_some _
        | cons hd tl =>
            cases hd with
            | list h => rw [evalCountForm_listhead]; exact models_some _
            | atom var =>
                cases tl with
                | nil => rw [evalCountForm_single]; exact models_some _
                | cons hd2 tl2 =>
                    cases hd2 with
                    | list h => rw [evalCountForm_atom_list]; exact models_some _
                    | atom fromKw =>
                        rw [evalCountForm_run]
                        simp only [evalCountFormF]
                        split_ifs
                        · exact ihCS var tl2 st
                        · exact models_some _
      -- evalCountStart
      · intro var args st
        cases args with
        | nil => rw [evalCountStart_nil]; exact models_some _
        | cons startE rest3 =>
            rw [evalCountStart_cons]
            exact models_bind (ihEval startE st) (fun p => ihCT var p.1 rest3 p.2)
      -- evalCountTo
      · intro var v args st
        cases v with
        | int s =>
            cases args with
            | nil => rw [evalCountTo_int_nil]; exact models_some _
            | cons hd rest4 =>
                cases hd with
                | list h => rw [evalCountTo_int_list]; exact models_some _
                | atom toKw =>
                    rw [evalCountTo_run]
                    simp only [evalCountToF]
                    split_ifs
                    · exact ihCE var s rest4 st
                    · exact models_some _
        | float x => rw [evalCountTo_float]; exact models_some _
        | string s2 => rw [evalCountTo_string]; exact models_some _
        | bool b => rw [evalCountTo_bool]; exact models_some _
        | null => rw [evalCountTo_null]; exact models_some _
        | void => rw [evalCountTo_void]; exact models_some _
      -- evalCountEnd
      · intro var s args st
        cases args with
        | nil => rw [evalCountEnd_nil]; exact models_some _
        | cons endE rest5 =>
            rw [evalCountEnd_cons]
            exact models_bind (ihEval endE st) (fun p => ihCB var s p.1 rest5 p.2)
      -- evalCountBody
      · intro var s v args st
        cases v with
        | int e =>
            cases args with
            | nil => rw [evalCountBody_nil]; exact models_some _
            | cons hd rest6 =>
                cases hd with
                | list bl =>
                    rw [evalCountBody_run]
                    exact models_map _ (ihLoop (intRange s (e - s).toNat) var bl st)
                | atom a => rw [evalCountBody_atom]; exact models_some _
        | float x => rw [evalCountBody_float]; exact models_some _
        | string s2 => rw [evalCountBody_string]; exact models_some _
        | bool b => rw [evalCountBody_bool]; exact models_some _
        | null => rw [evalCountBody_null]; exact models_some _
        | void => rw [evalCountBody_void]; exact models_some _
      -- evalPrint
      · intro args st
        cases args with
        | nil => rw [evalPrint_nil]; exact models_some _
        | cons e rest =>
            rw [evalPrint_cons]
            exact models_bind (ihEval e st)
              (fun p => ihPrint rest { p.2 with out := p.2.out ++ [p.1.render] })
      -- evalArgs
      · intro args st
        cases args with
        | nil => rw [evalArgs_nil]; exact models_some _
        | cons e rest =>
            rw [evalArgs_cons]
            exact models_bind (ihEval e st)
              (fun p => models_map _ (ihArgs rest p.2))
      -- evalSeq
      · intro args st
        cases args with
        | nil => rw [evalSeq_nil]; exact models_some _
        | cons e rest =>
            rw [evalSeq_cons]
            exact models_bind (ihEval e st) (fun p => ihSeq rest p.2)
      -- countLoop
      · intro l var body st
        cases l with
        | nil => rw [countLoop_nil]; exact models_some _
        | cons i is_ =>
            rw [countLoop_cons]
            exact models_bind
              (ihSeq body { st with vars := envInsert var (Value.int i) st.vars })
              (fun st1 => ihLoop is_ var body st1)

/-- Transfer of a completed fuel-bounded run to the evaluator. -/
theorem eval_fuel (n : ℕ) {s : SExpr} {st : InterpSt}
    {r : Except Err (Value × InterpSt)} (h : evalF n s st = some r) :
    eval s st = r :=
  (evalF_sound_all n).1 s st r h


/-! Small computed facts shared by the claim theorems. -/

theorem atomLit0 : evalAtom "0" = .ok (.int 0) := by decide

theorem atomLit1 : evalAtom "1" = .ok (.int 1) := by decide

theorem atomLit3 : evalAtom "3" = .ok (.int 3) := by decide

theorem atomLit4 : evalAtom "4" = .ok (.int 4) := by decide

theorem atomLit5 : evalAtom "5" = .ok (.int 5) := by decide

theorem atomLit7 : evalAtom "7" = .ok (.int 7) := by decide

theorem atomLitTrue : evalAtom "true" = .ok (.bool true) := by decide

theorem atomLitFalse : evalAtom "false" = .ok (.bool false) := by decide

theorem modValues73 : modValues (.int 7) (.int 3) = .ok (.int 1) := by decide

theorem eqValues11 : eqValues (.int 1) (.int 1) = .ok (.bool true) := by decide

theorem intRange00 : intRange 0 ((0 : ℤ) - 0).toNat = [] := by decide

/-- C1 (counterexample): the claim says every special form, `mod`
included, fails with a fatal ArityError when given trailing tokens; in
fact `(mod 7 3 99)` ignores the trailing `99` and evaluates to `Int(1)`
without any error. -/
theorem c1_counterexample :
    eval (.list [.atom "mod", .atom "7", .atom "3", .atom "99"]) ⟨[], []⟩
      = .ok (.int 1, ⟨[], []⟩) :=
  eval_fuel 8 (by decide)

/-- C1 (amended): only `let`, `set`, `get` and `inc` check for trailing
tokens (failing with the trailing-token panic the spec calls
`ArityError`); `mod`, `eq`, `if` and `count` never examine tokens beyond
the arguments they consume, so arbitrary trailing tokens are silently
ignored and evaluation completes normally. -/
theorem c1_trailing_tokens :
    (∀ (extra : List SExpr) (st : InterpSt),
      eval (.list (.atom "mod" :: .atom "7" :: .atom "3" :: extra)) st
        = .ok (.int 1, st)) ∧
    (∀ (extra : List SExpr) (st : InterpSt),
      eval (.list (.atom "eq" :: .atom "1" :: .atom "1" :: extra)) st
        = .ok (.bool true, st)) ∧
    (∀ (extra : List SExpr) (st : InterpSt),
      eval (.list (.atom "if" :: .atom "true" :: .atom "4" :: extra)) st
        = .ok (.int 4, st)) ∧
    (∀ (extra : List SExpr) (st : InterpSt),
      eval (.list (.atom "count" :: .atom "i" :: .atom "from" :: .atom "0" ::
        .atom "to" :: .atom "0" :: .list [] :: extra)) st
        = .ok (.void, st)) ∧
    (∀ (v : SExpr) (st : InterpSt),
      eval (.list [.atom "let", .atom "x", .atom "1", v]) st
        = .error .expectedEndOfList) ∧
    (∀ (v : SExpr) (st : InterpSt),
      eval (.list [.atom "set", .atom "x", .atom "1", v]) st
        = .error .expectedEndOfList) ∧
    (∀ (v : SExpr) (st : InterpSt),
      eval (.list [.atom "get", .atom "x", v]) st
        = .error .expectedEndOfList) ∧
    (∀ (v : SExpr) (st : InterpSt),
      eval (.list [.atom "inc", .atom "x", v]) st
        = .error .expectedEndOfList) := by
  refine ⟨?_, ?_, ?_, ?_, ?_, ?_, ?_, ?_⟩
  · intro extra st
    simp only [eval_call, evalForm_mod, evalModForm_cons, eval_atom_eq,
      atomLit7, atomLit3, exc_map_ok, exc_bind_ok, evalModRight_cons,
      modValues73]
  · intro extra st
    simp only [eval_call, evalForm_eq, evalEqForm_cons, eval_atom_eq,
      atomLit1, exc_map_ok, exc_bind_ok, evalEqRight_cons, eqValues11]
  · intro extra st
    simp only [eval_call, evalForm_if, evalIfForm_cons, eval_atom_eq,
      atomLitTrue, exc_map_ok, exc_bind_ok, evalIfCond_true_atom, atomLit4]
  · intro extra st
    simp only [eval_call, evalForm_count, evalCountForm_run, reduceIte,
      evalCountStart_cons, eval_atom_eq, atomLit0, exc_map_ok, exc_bind_ok,
      evalCountTo_run, evalCountEnd_cons, evalCountBody_run, intRange00,
      countLoop_nil]
  · intro v st
    simp only [eval_call, evalForm_let, evalLetForm_extra]
  · intro v st
    simp only [eval_call, evalForm_set, evalSetForm_extra]
  · intro v st
    simp only [eval_call, evalForm_get, evalGetForm]
  · intro v st
    simp only [eval_call, evalForm_inc, evalIncForm]

/-- C3 (counterexample): the claim says two `Int` operands always yield
an `Int` remainder; `(mod 1 0)` instead aborts with the Rust
division-by-zero panic. -/
theorem c3_counterexample :
    eval (.list [.atom "mod", .atom "1", .atom "0"]) ⟨[], []⟩
      = .error .divByZero :=
  eval_fuel 8 (by decide)

/-- C3 (amended): `mod` on two `Int`s yields the `Int` truncated
remainder provided the divisor is nonzero and the pair is not
`i64::MIN % -1` (a zero divisor aborts with the division-by-zero
panic, `i64::MIN % -1` with the remainder-overflow panic, see C9); two
`Float`s yield the floating remainder; a mixed `Int`/`Float` pair
widens the `Int` to `Float` through the `i64 as f64` cast (rounding
magnitudes above `2^53`) and computes a floating remainder, never an
integer-first truncation; any non-numeric operand is the type-mismatch
panic.  Concretely `(mod 7 3)` is `Int(1)`, `(mod 7.5 2)` is
`Float(1.5)` and `(mod 2 7.0)` is `Float(2.0)`. -/
theorem c3_mod_widening :
    (∀ a b : ℤ, b ≠ 0 → ¬(a = -(2 ^ 63) ∧ b = -1) →
      modValues (.int a) (.int b) = .ok (.int (Int.tmod a b))) ∧
    modValues (.int (-(2 ^ 63))) (.int (-1)) = .error .remOverflow ∧
    (∀ x y : F64, modValues (.float x) (.float y) = .ok (.float (x.fmod y))) ∧
    (∀ (a : ℤ) (y : F64),
      modValues (.int a) (.float y) = .ok (.float ((F64.ofInt a).fmod y))) ∧
    (∀ (x : F64) (b : ℤ),
      modValues (.float x) (.int b) = .ok (.float (x.fmod (F64.ofInt b)))) ∧
    (∀ l r : Value, ¬ (l.isNumeric = true ∧ r.isNumeric = true) →
      modValues l r = .error .expectedIntOrFloat) ∧
    eval (.list [.atom "mod", .atom "7", .atom "3"]) ⟨[], []⟩
      = .ok (.int 1, ⟨[], []⟩) ∧
    eval (.list [.atom "mod", .atom "7.5", .atom "2"]) ⟨[], []⟩
      = .ok (.float (.finite ⟨3, 2⟩), ⟨[], []⟩) ∧
    eval (.list [.atom "mod", .atom "2", .atom "7.0"]) ⟨[], []⟩
      = .ok (.float (.finite ⟨2, 1⟩), ⟨[], []⟩) := by
  refine ⟨?_, by decide, ?_, ?_, ?_, ?_, ?_, ?_, ?_⟩
  · intro a b hb hov
    simp [modValues, hb]
    intro ha hb1
    exact hov ⟨by norm_num [ha], hb1⟩
  · intro x y
    rfl
  · intro a y
    rfl
  · intro x b
    rfl
  · intro l r h
    cases l <;> cases r <;> simp [Value.isNumeric] at h <;> rfl
  · exact eval_fuel 8 (by decide)
  · exact eval_fuel 8 (by decide)
  · exact eval_fuel 8 (by decide)

/-- C3 witness: the amended integer case applied at `7 mod 3`. -/
theorem c3_mod_widening_witness :
    modValues (.int 7) (.int 3) = .ok (.int 1) := by
  have h := c3_mod_widening.1 7 3 (by decide) (by decide)
  rw [h]
  decide

/-- C9: an integer `mod` with a zero divisor aborts with the Rust
division-by-zero panic, an abort outside the error kinds the spec
enumerates in section 7; the only other unenumerated aborts are the two
sibling arithmetic-overflow panics (`i64::MIN % -1` in `mod`, and the
`inc` increment at `i64::MAX`) — every remaining abort is classified;
away from those two panics a nonzero divisor yields the `Int`
remainder; the `Float` branches with a zero divisor instead produce NaN
without aborting. -/
theorem c9_mod_div_by_zero :
    (∀ a : ℤ, modValues (.int a) (.int 0) = .error .divByZero) ∧
    modValues (.int (-(2 ^ 63))) (.int (-1)) = .error .remOverflow ∧
    (∀ a b : ℤ, b ≠ 0 → ¬(a = -(2 ^ 63) ∧ b = -1) →
      modValues (.int a) (.int b) = .ok (.int (Int.tmod a b))) ∧
    specErrorKind .divByZero = none ∧
    (∀ e : Err, specErrorKind e = none ↔
      e = .divByZero ∨ e = .remOverflow ∨ e = .addOverflow) ∧
    (∀ (x : F64) (y : Q), y.num = 0 →
      modValues (.float x) (.float (.finite y)) = .ok (.float .nan)) ∧
    (∀ x : F64, modValues (.float x) (.int 0) = .ok (.float .nan)) ∧
    (∀ (a : ℤ) (y : Q), y.num = 0 →
      modValues (.int a) (.float (.finite y)) = .ok (.float .nan)) ∧
    eval (.list [.atom "mod", .atom "1", .atom "0"]) ⟨[], []⟩
      = .error .divByZero ∧
    eval (.list [.atom "mod", .atom "-9223372036854775808", .atom "-1"])
        ⟨[], []⟩
      = .error .remOverflow := by
  refine ⟨?_, by decide, ?_, rfl, ?_, ?_, ?_, ?_, eval_fuel 8 (by decide),
    eval_fuel 8 (by decide)⟩
  · intro a
    simp [modValues]
  · intro a b hb hov
    simp [modValues, hb]
    intro ha hb1
    exact hov ⟨by norm_num [ha], hb1⟩
  · intro e
    cases e <;> simp [specErrorKind]
  · intro x y hy
    cases x <;> simp [modValues, F64.fmod, hy]
  · intro x
    cases x <;> simp [modValues, F64.fmod, F64.ofInt, Q.ofInt, roundI64toF64]
  · intro a y hy
    simp [modValues, F64.fmod, F64.ofInt, hy]

/-- C9 witness: the nonzero-divisor, non-overflowing case applied at
`9 mod 4`. -/
theorem c9_mod_div_by_zero_witness :
    modValues (.int 9) (.int 4) = .ok (.int 1) := by
  have h := c9_mod_div_by_zero.2.2.1 9 4 (by decide) (by decide)
  rw [h]
  decide


/-- C4: `eq` produces a `Bool` only when both operands have the same
`Value` variant; same-variant pairs compare their payloads (`Null`s and
`Void`s are always equal), and every cross-variant comparison —
including `Int` versus `Float` — fails with the type-mismatch panic
instead of returning `Bool(false)`. -/
theorem c4_eq_strictness :
    (∀ l r : Value, l.sameVariant r = false →
      eqValues l r = .error .expectedIntOrFloat) ∧
    (∀ (l r : Value) (b : Bool), eqValues l r = .ok (.bool b) →
      l.sameVariant r = true) ∧
    (∀ a b : ℤ, eqValues (.int a) (.int b) = .ok (.bool (decide (a = b)))) ∧
    (∀ x y : F64, eqValues (.float x) (.float y) = .ok (.bool (x.beq y))) ∧
    (∀ s t : String,
      eqValues (.string s) (.string t) = .ok (.bool (decide (s = t)))) ∧
    (∀ a b : Bool, eqValues (.bool a) (.bool b) = .ok (.bool (decide (a = b)))) ∧
    eqValues .null .null = .ok (.bool true) ∧
    eqValues .void .void = .ok (.bool true) ∧
    eval (.list [.atom "eq", .atom "1", .atom "1.0"]) ⟨[], []⟩
      = .error .expectedIntOrFloat := by
  refine ⟨?_, ?_, ?_, ?_, ?_, ?_, rfl, rfl, ?_⟩
  · intro l r h
    cases l <;> cases r <;> simp_all [Value.sameVariant, eqValues]
  · intro l r b h
    cases l <;> cases r <;> simp_all [Value.sameVariant, eqValues]
  · intro a b
    rfl
  · intro x y
    rfl
  · intro s t
    rfl
  · intro a b
    rfl
  · exact eval_fuel 8 (by decide)

/-- C4 witness: the cross-variant case applied to `Int(1)` and a
`Float`. -/
theorem c4_eq_strictness_witness :
    eqValues (.int 1) (.float .nan) = .error .expectedIntOrFloat :=
  c4_eq_strictness.1 (.int 1) (.float .nan) (by decide)

/-- C5: atom evaluation maps `true`/`false` to the boolean literals,
otherwise attempts an integer parse before a floating-point parse (an
atom that parses as an integer is never treated as a `Float`), fails
with the unknown-atom panic when neither parse succeeds, and never
reads the environment (the state is returned unchanged and the result
is computed by the environment-free `evalAtom`). -/
theorem c5_atom_literals :
    evalAtom "true" = .ok (.bool true) ∧
    evalAtom "false" = .ok (.bool false) ∧
    (∀ (a : String) (n : ℤ), a ≠ "true" → a ≠ "false" →
      parseI64 a = some n → evalAtom a = .ok (.int n)) ∧
    (∀ (a : String) (f : F64), a ≠ "true" → a ≠ "false" →
      parseI64 a = none → parseF64 a = some f →
      evalAtom a = .ok (.float f)) ∧
    (∀ a : String, a ≠ "true" → a ≠ "false" →
      parseI64 a = none → parseF64 a = none →
      evalAtom a = .error (.unknownAtom a)) ∧
    (∀ (a : String) (st : InterpSt),
      eval (.atom a) st = (evalAtom a).map (fun v => (v, st))) ∧
    parseI64 "7" = some 7 ∧
    parseF64 "7" = some (.finite ⟨7, 1⟩) ∧
    evalAtom "7" = .ok (.int 7) := by
  refine ⟨by decide, by decide, ?_, ?_, ?_, eval_atom_eq, by decide,
    by decide, by decide⟩
  · intro a n h1 h2 h3
    simp [evalAtom, h1, h2, h3]
  · intro a f h1 h2 h3 h4
    simp [evalAtom, h1, h2, h3, h4]
  · intro a h1 h2 h3 h4
    simp [evalAtom, h1, h2, h3, h4]

/-- C5 witness: the integer-precedence case applied to the atom `12`,
which also parses as a float. -/
theorem c5_atom_literals_witness : evalAtom "12" = .ok (.int 12) :=
  c5_atom_literals.2.2.1 "12" 12 (by decide) (by decide) (by decide)

/-- Re-inserting the same binding is a no-op on the environment. -/
theorem envInsert_idem (k : String) (v : Value) :
    ∀ m : Env, envInsert k v (envInsert k v m) = envInsert k v m := by
  intro m
  induction m with
  | nil => simp [envInsert]
  | cons p rest ihm =>
      obtain ⟨k1, v1⟩ := p
      by_cases h : k1 = k
      · simp [envInsert, h]
      · simp [envInsert, h, ihm]

/-- Membership in the iteration sequence. -/
theorem intRange_mem : ∀ (n : ℕ) (s j : ℤ),
    j ∈ intRange s n ↔ s ≤ j ∧ j < s + n := by
  intro n
  induction n with
  | zero =>
      intro s j
      simp [intRange]
  | succ n ihn =>
      intro s j
      simp [intRange, ihn]
      omega

/-- The iteration sequence is strictly increasing. -/
theorem intRange_pairwise : ∀ (n : ℕ) (s : ℤ),
    List.Pairwise (fun a b : ℤ => a < b) (intRange s n) := by
  intro n
  induction n with
  | zero => intro s; simp [intRange]
  | succ n ihn =>
      intro s
      refine List.Pairwise.cons ?_ (ihn (s + 1))
      intro b hb
      have := (intRange_mem n (s + 1) b).1 hb
      omega

/-- An empty iteration sequence for `start ≥ end`. -/
theorem intRange_empty (s e : ℤ) (h : e ≤ s) :
    intRange s (e - s).toNat = [] := by
  have hz : (e - s).toNat = 0 := by omega
  rw [hz]
  simp [intRange]

/-- Evaluation of a well-shaped `count` form whose bounds evaluated to
the integers `s` and `e`: the loop walks `intRange s (e-s).toNat`. -/
theorem count_form_eval (var : String) (startE endE : SExpr)
    (body extra : List SExpr) (st : InterpSt) (s e : ℤ)
    (st1 st2 : InterpSt) (h1 : eval startE st = .ok (.int s, st1))
    (h2 : eval endE st1 = .ok (.int e, st2)) :
    eval (.list (.atom "count" :: .atom var :: .atom "from" :: startE ::
        .atom "to" :: endE :: .list body :: extra)) st
      = (countLoop (intRange s (e - s).toNat) var body st2).map
          (fun st3 => (Value.void, st3)) := by
  simp only [eval_call, evalForm_count, evalCountForm_run, reduceIte,
    evalCountStart_cons, h1, exc_bind_ok, evalCountTo_run, evalCountEnd_cons,
    h2, evalCountBody_run]

/-- C8: re-binding is idempotent — a `let` of a literal lands in the
state with the binding inserted, and running the same `let` again from
that state yields exactly the same state (also stated for the two-`let`
statement sequence); `let` returns `Void` while `set` performs the same
binding but returns the bound value. -/
theorem c8_rebinding_idempotent :
    (∀ (x a : String) (v : Value) (st : InterpSt), evalAtom a = .ok v →
      eval (.list [.atom "let", .atom x, .atom a]) st
        = .ok (.void, { st with vars := envInsert x v st.vars })) ∧
    (∀ (x a : String) (v : Value) (st : InterpSt), evalAtom a = .ok v →
      eval (.list [.atom "let", .atom x, .atom a])
          { st with vars := envInsert x v st.vars }
        = .ok (.void, { st with vars := envInsert x v st.vars })) ∧
    (∀ (x a : String) (v : Value) (st : InterpSt), evalAtom a = .ok v →
      eval (.list [.atom "set", .atom x, .atom a]) st
        = .ok (v, { st with vars := envInsert x v st.vars })) ∧
    (∀ st : InterpSt,
      evalSeq [.list [.atom "let", .atom "x", .atom "5"],
        .list [.atom "let", .atom "x", .atom "5"]] st
        = evalSeq [.list [.atom "let", .atom "x", .atom "5"]] st) := by
  refine ⟨?_, ?_, ?_, ?_⟩
  · intro x a v st h
    simp [eval_call, evalForm_let, evalLetForm_run, eval_atom_eq, h,
      exc_map_ok]
  · intro x a v st h
    simp [eval_call, evalForm_let, evalLetForm_run, eval_atom_eq, h,
      exc_map_ok, envInsert_idem]
  · intro x a v st h
    simp [eval_call, evalForm_set, evalSetForm_run, eval_atom_eq, h,
      exc_map_ok]
  · intro st
    simp [evalSeq_cons, evalSeq_nil, eval_call, evalForm_let,
      evalLetForm_run, eval_atom_eq, atomLit5, exc_map_ok, exc_bind_ok,
      envInsert_idem]

/-- C8 witness: re-running `(let x 5)` from the post-binding state
leaves the state unchanged. -/
theorem c8_rebinding_idempotent_witness :
    eval (.list [.atom "let", .atom "x", .atom "5"])
        ⟨[("x", .int 5)], []⟩
      = .ok (.void, ⟨[("x", .int 5)], []⟩) := by
  have h := c8_rebinding_idempotent.2.1 "x" "5" (.int 5) ⟨[], []⟩ (by decide)
  simpa [envInsert] using h


/-- C2 (counterexample): the claim says
`(count i from 0 to 3 (print (get i)))` prints `0`, `1`, `2`; in fact
the body list is evaluated as a sequence of statements, so its first
element — the bare atom `print` — aborts the run with the unknown-atom
panic on the first iteration, and nothing is printed. -/
theorem c2_counterexample :
    eval (.list [.atom "count", .atom "i", .atom "from", .atom "0",
      .atom "to", .atom "3", .list [.atom "print", .list [.atom "get",
      .atom "i"]]]) ⟨[], []⟩
      = .error (.unknownAtom "print") :=
  eval_fuel 16 (by decide)

/-- C2 (amended): a `count` form whose bounds evaluate to `Int`s `s` and
`e` runs its body — a sequence of statements — once per element of the
strictly increasing half-open iteration sequence `[s, e)` (empty when
`s ≥ e`), binding the loop variable before each iteration; the binding
persists after the loop.  Because the body is a statement sequence, the
claim's examples need one more level of parentheses:
`(count i from 0 to 3 ((print (get i))))` prints `0`, `1`, `2` in that
order and nothing else and leaves `i` bound to `Int(2)`, and
`(count i from 5 to 5 ((print (get i))))` prints nothing. -/
theorem c2_count_semantics :
    (∀ (var : String) (startE endE : SExpr) (body extra : List SExpr)
      (st : InterpSt) (s e : ℤ) (st1 st2 : InterpSt),
      eval startE st = .ok (.int s, st1) →
      eval endE st1 = .ok (.int e, st2) →
      eval (.list (.atom "count" :: .atom var :: .atom "from" :: startE ::
          .atom "to" :: endE :: .list body :: extra)) st
        = (countLoop (intRange s (e - s).toNat) var body st2).map
            (fun st3 => (Value.void, st3))) ∧
    (∀ s e j : ℤ, j ∈ intRange s (e - s).toNat ↔ s ≤ j ∧ j < e) ∧
    (∀ (s : ℤ) (n : ℕ),
      List.Pairwise (fun a b : ℤ => a < b) (intRange s n)) ∧
    (∀ s e : ℤ, e ≤ s → intRange s (e - s).toNat = []) ∧
    (∀ (i : ℤ) (is_ : List ℤ) (var : String) (body : List SExpr)
      (st : InterpSt),
      countLoop (i :: is_) var body st
        = (evalSeq body
            { st with vars := envInsert var (Value.int i) st.vars }).bind
            (fun st1 => countLoop is_ var body st1)) ∧
    eval (.list [.atom "count", .atom "i", .atom "from", .atom "0",
        .atom "to", .atom "3",
        .list [.list [.atom "print", .list [.atom "get", .atom "i"]]]])
        ⟨[], []⟩
      = .ok (.void, ⟨[("i", .int 2)], ["0", "1", "2"]⟩) ∧
    eval (.list [.atom "count", .atom "i", .atom "from", .atom "5",
        .atom "to", .atom "5",
        .list [.list [.atom "print", .list [.atom "get", .atom "i"]]]])
        ⟨[], []⟩
      = .ok (.void, ⟨[], []⟩) := by
  refine ⟨count_form_eval, ?_, fun s n => intRange_pairwise n s,
    fun s e h => intRange_empty s e h, countLoop_cons,
    eval_fuel 64 (by decide), eval_fuel 16 (by decide)⟩
  intro s e j
  rw [intRange_mem]
  omega

/-- C2 witness: the loop characterization applied to
`(count k from 1 to 2 ())`. -/
theorem c2_count_semantics_witness :
    eval (.list [.atom "count", .atom "k", .atom "from", .atom "1",
      .atom "to", .atom "2", .list []]) ⟨[], []⟩
      = (countLoop (intRange 1 ((2 : ℤ) - 1).toNat) "k" [] ⟨[], []⟩).map
          (fun st3 => (Value.void, st3)) :=
  c2_count_semantics.1 "k" (.atom "1") (.atom "2") [] [] ⟨[], []⟩ 1 2
    ⟨[], []⟩ ⟨[], []⟩ (eval_fuel 8 (by decide)) (eval_fuel 8 (by decide))

/-- C6 (counterexample): the claim says
`(if true (print 1) else (print 2))` prints `1` only; in fact the taken
branch list is evaluated as a sequence of statements, so its first
element — the bare atom `print` — aborts the run with the unknown-atom
panic and nothing is printed. -/
theorem c6_counterexample :
    eval (.list [.atom "if", .atom "true", .list [.atom "print", .atom "1"],
      .atom "else", .list [.atom "print", .atom "2"]]) ⟨[], []⟩
      = .error (.unknownAtom "print") :=
  eval_fuel 16 (by decide)

/-- C6 (amended): an `if` condition must evaluate to `Bool` (any other
variant is the type-mismatch panic); a false condition without an
`else` clause yields `Void` with no branch side effects; a taken `List`
branch is evaluated as a sequence of statements and always yields
`Void`, while a bare-atom branch yields that atom's value; and because
branch lists are statement sequences, the claim's printing example
needs one more level of parentheses:
`(if true ((print 1)) else ((print 2)))` prints `1` only. -/
theorem c6_if_semantics :
    (∀ (condE : SExpr) (rest : List SExpr) (st : InterpSt) (v : Value)
      (st1 : InterpSt), eval condE st = .ok (v, st1) →
      (∀ b, v ≠ .bool b) →
      eval (.list (.atom "if" :: condE :: rest)) st
        = .error .expectedBoolValue) ∧
    (∀ (condE tb : SExpr) (st st1 : InterpSt),
      eval condE st = .ok (.bool false, st1) →
      eval (.list [.atom "if", condE, tb]) st = .ok (.void, st1)) ∧
    (∀ (condE : SExpr) (bl rest : List SExpr) (st st1 st2 : InterpSt),
      eval condE st = .ok (.bool true, st1) → evalSeq bl st1 = .ok st2 →
      eval (.list (.atom "if" :: condE :: .list bl :: rest)) st
        = .ok (.void, st2)) ∧
    (∀ (condE : SExpr) (a : String) (rest : List SExpr) (st st1 : InterpSt),
      eval condE st = .ok (.bool true, st1) →
      eval (.list (.atom "if" :: condE :: .atom a :: rest)) st
        = (evalAtom a).map (fun v => (v, st1))) ∧
    eval (.list [.atom "if", .atom "true",
        .list [.list [.atom "print", .atom "1"]], .atom "else",
        .list [.list [.atom "print", .atom "2"]]]) ⟨[], []⟩
      = .ok (.void, ⟨[], ["1"]⟩) ∧
    eval (.list [.atom "if", .atom "false",
        .list [.atom "print", .atom "1"]]) ⟨[], []⟩
      = .ok (.void, ⟨[], []⟩) := by
  refine ⟨?_, ?_, ?_, ?_, eval_fuel 16 (by decide), eval_fuel 16 (by decide)⟩
  · intro condE rest st v st1 h1 hv
    simp only [eval_call, evalForm_if, evalIfForm_cons, h1, exc_bind_ok]
    cases v with
    | bool b => exact absurd rfl (hv b)
    | int m => exact evalIfCond_int m rest st1
    | float x => exact evalIfCond_float x rest st1
    | string s => exact evalIfCond_string s rest st1
    | null => exact evalIfCond_null rest st1
    | void => exact evalIfCond_void rest st1
  · intro condE tb st st1 h
    simp only [eval_call, evalForm_if, evalIfForm_cons, h, exc_bind_ok,
      evalIfCond_false, evalIfElse_nil]
  · intro condE bl rest st st1 st2 h1 h2
    simp only [eval_call, evalForm_if, evalIfForm_cons, h1, exc_bind_ok,
      evalIfCond_true_list, h2, exc_map_ok]
  · intro condE a rest st st1 h1
    simp only [eval_call, evalForm_if, evalIfForm_cons, h1, exc_bind_ok,
      evalIfCond_true_atom]

/-- C6 witness: the false-without-else case applied to
`(if false 1)`. -/
theorem c6_if_semantics_witness :
    eval (.list [.atom "if", .atom "false", .atom "1"]) ⟨[], []⟩
      = .ok (.void, ⟨[], []⟩) :=
  c6_if_semantics.2.1 (.atom "false") (.atom "1") ⟨[], []⟩ ⟨[], []⟩
    (eval_fuel 8 (by decide))

/-- C10 (counterexample): the claim says a `count` with
`start >= end` leaves the entire Environment unchanged; but the bound
expressions themselves are evaluated, so
`(count i from 5 to (set j 0) ())` (start 5, end 0, loop body never
run) terminates with `j` newly bound — a changed Environment. -/
theorem c10_counterexample :
    eval (.list [.atom "count", .atom "i", .atom "from", .atom "5",
      .atom "to", .list [.atom "set", .atom "j", .atom "0"], .list []])
      ⟨[], []⟩
      = .ok (.void, ⟨[("j", .int 0)], []⟩) ∧
    (⟨[("j", .int 0)], []⟩ : InterpSt) ≠ ⟨[], []⟩ :=
  ⟨eval_fuel 16 (by decide), by decide⟩

/-- C10 (amended): when the bounds of a `count` form evaluate to `Int`s
with `start ≥ end`, the loop itself performs no Environment mutation:
the final state is exactly the state left by evaluating the two bound
expressions.  In particular, with bound expressions that do not mutate
the Environment — such as literal atoms — the state is unchanged, the
loop variable is never bound, and a `(get i)` that failed with the
unbound-variable panic before the loop still fails after it. -/
theorem c10_count_empty_frame :
    (∀ (var : String) (startE endE : SExpr) (body extra : List SExpr)
      (st : InterpSt) (s e : ℤ) (st1 st2 : InterpSt),
      eval startE st = .ok (.int s, st1) →
      eval endE st1 = .ok (.int e, st2) → e ≤ s →
      eval (.list (.atom "count" :: .atom var :: .atom "from" :: startE ::
          .atom "to" :: endE :: .list body :: extra)) st
        = .ok (.void, st2)) ∧
    (∀ (var a b : String) (body extra : List SExpr) (st : InterpSt)
      (s e : ℤ), evalAtom a = .ok (.int s) → evalAtom b = .ok (.int e) →
      e ≤ s →
      eval (.list (.atom "count" :: .atom var :: .atom "from" :: .atom a ::
          .atom "to" :: .atom b :: .list body :: extra)) st
        = .ok (.void, st)) ∧
    eval (.list [.atom "get", .atom "i"]) ⟨[], []⟩
      = .error (.variableNotFound "i") ∧
    eval (.list [.atom "count", .atom "i", .atom "from", .atom "5",
        .atom "to", .atom "5",
        .list [.list [.atom "print", .list [.atom "get", .atom "i"]]]])
        ⟨[], []⟩
      = .ok (.void, ⟨[], []⟩) := by
  have base : ∀ (var : String) (startE endE : SExpr)
      (body extra : List SExpr) (st : InterpSt) (s e : ℤ)
      (st1 st2 : InterpSt), eval startE st = .ok (.int s, st1) →
      eval endE st1 = .ok (.int e, st2) → e ≤ s →
      eval (.list (.atom "count" :: .atom var :: .atom "from" :: startE ::
          .atom "to" :: endE :: .list body :: extra)) st
        = .ok (.void, st2) := by
    intro var startE endE body extra st s e st1 st2 h1 h2 hle
    rw [count_form_eval var startE endE body extra st s e st1 st2 h1 h2,
      intRange_empty s e hle, countLoop_nil, exc_map_ok]
  refine ⟨base, ?_, eval_fuel 8 (by decide), eval_fuel 16 (by decide)⟩
  intro var a b body extra st s e ha hb hle
  exact base var (.atom a) (.atom b) body extra st s e st st
    (by rw [eval_atom_eq, ha, exc_map_ok])
    (by rw [eval_atom_eq, hb, exc_map_ok]) hle

/-- C10 witness: the literal-bounds case applied to
`(count i from 5 to 5 ())` in the empty state. -/
theorem c10_count_empty_frame_witness :
    eval (.list [.atom "count", .atom "i", .atom "from", .atom "5",
      .atom "to", .atom "5", .list []]) ⟨[], []⟩
      = .ok (.void, ⟨[], []⟩) :=
  c10_count_empty_frame.2.1 "i" "5" "5" [] [] ⟨[], []⟩ 5 5 (by decide)
    (by decide) (by omega)

end KK
